import Mathlib

/-!
Verification of the mono interpreter (ArielAlon24/mono) against its
natural-language specification.

The development shallowly embeds the pipeline of the repository:
`src/models/position.rs`, `src/tokenizer/token.rs`,
`src/tokenizer/tokenizer.rs`, `src/parser/node.rs`, `src/parser/mod.rs`,
`src/evaluator/value.rs`, `src/evaluator/symbol_table.rs`,
`src/evaluator/builtins.rs` and `src/evaluator/mod.rs`.

Modelling conventions, stated once here:
- Rust `i32` is modelled as `Int` with explicit wrapping (`i32_wrap`) where
  release-mode Rust wraps; Rust division/remainder panics (divisor 0 and
  `i32::MIN / -1`) are modelled as an explicit panic outcome.
- Rust `f32` is modelled as `Option ℚ`: `Option.none` stands for NaN (and any
  non-finite result); arithmetic on `some` values is exact rational
  arithmetic, which agrees with `f32` on the small values appearing in every
  theorem below. Transcendental operations (`powf`) are modelled as NaN and
  no theorem below depends on them.
- Rust panics (`panic!`, `todo!`, `unreachable!`, arithmetic aborts, the
  `internal_err!` macro) are modelled as explicit `panic` outcomes that
  propagate without running any cleanup, mirroring unwinding.
- The heap sharing of `Value::List(Rc<RefCell<..>>)` is not modelled (lists
  are copied); no theorem below involves list values.
- Nontermination is handled with a fuel parameter: every evaluator function
  returns `Option.none` when the fuel runs out, and each theorem either
  quantifies over fuel or uses a concrete sufficient fuel.
-/

namespace Mono

/-- Source position, from `src/models/position.rs`: `{row, column}`,
starting at `(1, 0)`. -/
structure Position where
  row : Nat
  column : Nat
deriving DecidableEq, Repr

/-- Position.next advances one column, from `Position::next`. -/
def Position.next (p : Position) : Position :=
  { p with column := p.column + 1 }

/-- Position.newline moves one row down and resets the column, from
`Position::newline`. -/
def Position.newline (p : Position) : Position :=
  { row := p.row + 1, column := 0 }

/-- Model of Rust `f32`: `some q` is a finite float holding the exact value
`q`; `none` stands for NaN (non-finite results are collapsed into it). -/
abbrev F32 : Type := Option ℚ

/-- A finite f32 value. -/
def F32.fin (q : ℚ) : F32 := some q

/-- The f32 NaN (collapsing all non-finite results). -/
def F32.nan : F32 := (Option.none : Option ℚ)

/-- Rust `f32 ==`: false whenever either side is NaN. -/
def f32_beq (a b : F32) : Bool :=
  match a, b with
  | some x, some y => x == y
  | _, _ => false

/-- Rust f32 addition (exact on the values used by the theorems below). -/
def f32_add (a b : F32) : F32 :=
  match a, b with
  | some x, some y => some (x + y)
  | _, _ => F32.nan

/-- Rust f32 subtraction. -/
def f32_sub (a b : F32) : F32 :=
  match a, b with
  | some x, some y => some (x - y)
  | _, _ => F32.nan

/-- Rust f32 multiplication. -/
def f32_mul (a b : F32) : F32 :=
  match a, b with
  | some x, some y => some (x * y)
  | _, _ => F32.nan

/-- Rust f32 division; only reached with a nonzero divisor in `Value::div`
(the zero-divisor case is caught by the guard); `x / 0.0` would be
non-finite and is collapsed into NaN here. -/
def f32_div (a b : F32) : F32 :=
  match a, b with
  | some x, some y => if y = 0 then F32.nan else some (x / y)
  | _, _ => F32.nan

/-- Truncation of a rational toward zero. -/
def rat_trunc (q : ℚ) : Int := Int.tdiv q.num (q.den : Int)

/-- Rust f32 remainder `a % b`: `a - b * trunc(a / b)`; `x % 0.0` is NaN. -/
def f32_mod (a b : F32) : F32 :=
  match a, b with
  | some x, some y =>
      if y = 0 then F32.nan else some (x - y * (rat_trunc (x / y) : ℚ))
  | _, _ => F32.nan

/-- Rust f32 `<`: false whenever either side is NaN. -/
def f32_blt (a b : F32) : Bool :=
  match a, b with
  | some x, some y => decide (x < y)
  | _, _ => false

/-- Rust f32 `<=`: false whenever either side is NaN. -/
def f32_ble (a b : F32) : Bool :=
  match a, b with
  | some x, some y => decide (x ≤ y)
  | _, _ => false

/-- Rust f32 `powf`: transcendental, outside this rational model; modelled
as NaN. No theorem below evaluates it. -/
def f32_powf (_a _b : F32) : F32 := F32.nan

/-- Two-sided wrap of an integer into the `i32` range, the release-mode
behaviour of Rust `i32` arithmetic. -/
def i32_wrap (x : Int) : Int :=
  (x + 2 ^ 31) % 2 ^ 32 - 2 ^ 31

/-- Saturating cast from a mathematical integer to `i32`, the behaviour of
Rust `as i32` on a float value. -/
def i32_sat (x : Int) : Int :=
  max (-(2 ^ 31)) (min (2 ^ 31 - 1) x)

/-- Smallest `i32`. -/
def i32_min : Int := -(2 ^ 31)

/-- Token kinds, from `src/tokenizer/token.rs` (enum `TokenKind`).

The trailing six constructors (`letK` … `comma`) are Modelled from the spec:
`src/parser/mod.rs` matches on `TokenKind::Let/If/Else/While/Return/Comma`,
which the (older) `token.rs` present in the tree does not declare; the spec
lists these keywords and the comma among the token kinds. The tokenizer
embedded below never produces them, exactly like the `token.rs` in the
tree. -/
inductive TokenKind where
  | identifier (name : String)
  | none
  | not
  | and
  | or
  | character (c : Char)
  | string (s : String)
  | integer (value : Int)
  | float (value : F32)
  | boolean (value : Bool)
  | add
  | sub
  | mul
  | div
  | mod
  | pow
  | assignment
  | equals
  | notEquals
  | greater
  | greaterEq
  | lessThan
  | lessThanEq
  | rightParen
  | leftParen
  | rightCurly
  | leftCurly
  | rightBracket
  | leftBracket
  | arrow
  | doubleArrow
  | newLine
  | letK
  | ifK
  | elseK
  | whileK
  | returnK
  | comma
deriving DecidableEq, Repr

/-- TokenKind::from_str, from `src/tokenizer/token.rs`: the fixed keyword
table applied to a scanned identifier. Note that it matches the capitalized
spellings `True`/`False`/`None` but the lowercase `not`/`and`/`or`. -/
def TokenKind.from_str (identifier : String) : Option TokenKind :=
  if identifier = "True" then some (TokenKind.boolean true)
  else if identifier = "False" then some (TokenKind.boolean false)
  else if identifier = "None" then some TokenKind.none
  else if identifier = "not" then some TokenKind.not
  else if identifier = "and" then some TokenKind.and
  else if identifier = "or" then some TokenKind.or
  else Option.none

/-- A token, from `src/tokenizer/token.rs`: start position, optional end
position (`none` marks a single-character token), and kind. -/
structure Token where
  start : Position
  stop : Option Position
  kind : TokenKind
deriving DecidableEq, Repr

/-- Lexical errors, the `InvalidSyntax`/`Syntax` variants raised by the
tokenizer in `src/models/error.rs` (the Rust enum is named `Syntax`; renamed
here). -/
inductive LexErr where
  | invalidIntegerSize (start : Position) (stop : Position)
  | invalidFloatSize (start : Position) (stop : Position)
  | unclosedCharDelimeter (start : Position) (stop : Position)
      (found : Option Char)
  | unclosedStringDelimeter (start : Position)
  | unexpectedChar (position : Position) (c : Char)
  | multipleFloatingPoints (start : Position) (stop : Position)
  | unrecognizedChar (position : Position) (c : Char)
deriving DecidableEq, Repr

/-- One step of the tokenizer: the produced item (`none` = end of input),
the remaining characters, and the updated position. -/
structure LexStep where
  item : Option (Except LexErr Token)
  rest : List Char
  pos : Position
deriving Repr

/-- A single-character token (end position `None`), the `single!` macro of
`src/tokenizer/tokenizer.rs`. -/
def single (pos : Position) (kind : TokenKind) : Option (Except LexErr Token) :=
  some (Except.ok ⟨pos, Option.none, kind⟩)

/-- A multi-character token, the `multi!` macro. -/
def multi (start stop : Position) (kind : TokenKind) :
    Option (Except LexErr Token) :=
  some (Except.ok ⟨start, some stop, kind⟩)

/-- Identifier-character test of `Tokenizer::next_identifier`:
`is_ascii_alphabetic || is_numeric || == '_'` (Unicode digits beyond ASCII
are not modelled; every input in this file is ASCII). -/
def is_identifier_char (c : Char) : Bool :=
  c.isAlpha || c.isDigit || c == '_'

/-- The consuming loop of `Tokenizer::next_identifier`: greedily take
identifier characters, advancing the position per character. -/
def identifier_loop : List Char → Position → String →
    String × List Char × Position
  | [], pos, acc => (acc, [], pos)
  | c :: rest, pos, acc =>
      if is_identifier_char c then
        identifier_loop rest pos.next (acc.push c)
      else (acc, c :: rest, pos)

/-- Tokenizer::next_identifier, from `src/tokenizer/tokenizer.rs`: consume
the identifier, then look it up in the keyword table; single-character
lexemes get `end = None`. -/
def next_identifier (c : Char) (chars : List Char) (pos : Position) : LexStep :=
  let start := pos
  let r := identifier_loop chars pos (String.mk [c])
  let stop := if r.2.2 = start then (Option.none : Option Position)
    else some r.2.2
  match TokenKind.from_str r.1 with
  | some kind => ⟨some (Except.ok ⟨start, stop, kind⟩), r.2.1, r.2.2⟩
  | Option.none =>
      ⟨some (Except.ok ⟨start, stop, TokenKind.identifier r.1⟩), r.2.1, r.2.2⟩

/-- Digit-string of a scanned number to its exact rational value (integer
part and fractional part split at the dot). `f32` parse rounding is not
modelled; no theorem below depends on a float literal's value. -/
def decimal_to_rat (s : String) : ℚ :=
  match s.split (fun c => c = '.') with
  | [intPart] => ((intPart.toNat?).getD 0 : ℚ)
  | [intPart, fracPart] =>
      ((intPart.toNat?).getD 0 : ℚ) +
        ((fracPart.toNat?).getD 0 : ℚ) / (10 ^ fracPart.length : ℚ)
  | _ => 0

/-- Rust `str::parse::<i32>` on a digit string: the value when it fits in
`i32`, failure otherwise. -/
def parse_i32 (s : String) : Option Int :=
  match s.toNat? with
  | some n => if (n : Int) ≤ 2 ^ 31 - 1 then some (n : Int) else Option.none
  | Option.none => Option.none

/-- Rust `str::parse::<f32>` on a decimal literal: never fails on the digit
strings the scanner produces (overflow yields infinity, still `Ok`), so the
`InvalidFloatSize` branch of `next_number` is unreachable. -/
def parse_f32 (s : String) : Option F32 :=
  some (F32.fin (decimal_to_rat s))

/-- The consuming loop of `Tokenizer::next_number`: digits are consumed
(position advanced after the push); a dot advances the position first and a
second dot is a `MultipleFloatingPoints` error. Returns either the error or
the scanned string, the float flag, the rest, and the position. -/
def number_loop : List Char → Position → String → Bool → Position →
    Except LexErr (String × Bool × List Char × Position)
  | [], pos, acc, isFloat, _ => Except.ok (acc, isFloat, [], pos)
  | c :: rest, pos, acc, isFloat, start =>
      if c.isDigit then
        number_loop rest pos.next (acc.push c) isFloat start
      else if c = '.' then
        if isFloat then
          Except.error (LexErr.multipleFloatingPoints start pos.next)
        else
          number_loop rest pos.next (acc.push c) true start
      else Except.ok (acc, isFloat, c :: rest, pos)

/-- Tokenizer::next_number, from `src/tokenizer/tokenizer.rs`. -/
def next_number (c : Char) (chars : List Char) (pos : Position) : LexStep :=
  let start := pos
  match number_loop chars pos (String.mk [c]) false start with
  | Except.error e => ⟨some (Except.error e), [], pos⟩
  | Except.ok (number, isFloat, rest, pos') =>
      let stop := if pos' = start then (Option.none : Option Position)
        else some pos'
      if isFloat then
        match parse_f32 number with
        | some f => ⟨some (Except.ok ⟨start, stop, TokenKind.float f⟩), rest, pos'⟩
        | Option.none =>
            ⟨some (Except.error (LexErr.invalidFloatSize start (stop.getD start))),
              rest, pos'⟩
      else
        match parse_i32 number with
        | some n =>
            ⟨some (Except.ok ⟨start, stop, TokenKind.integer n⟩), rest, pos'⟩
        | Option.none =>
            ⟨some (Except.error (LexErr.invalidIntegerSize start (stop.getD start))),
              rest, pos'⟩

/-- The consuming loop of `Tokenizer::next_string`: take characters up to
(not including) the closing quote. -/
def string_loop : List Char → Position → String →
    String × List Char × Position
  | [], pos, acc => (acc, [], pos)
  | c :: rest, pos, acc =>
      if c = '"' then (acc, c :: rest, pos)
      else string_loop rest pos.next (acc.push c)

/-- Tokenizer::next_string, from `src/tokenizer/tokenizer.rs`. -/
def next_string (chars : List Char) (pos : Position) : LexStep :=
  let start := pos
  let r := string_loop chars pos ("")
  match r.2.1 with
  | '"' :: rest =>
      ⟨multi start r.2.2 (TokenKind.string r.1), rest, r.2.2⟩
  | _ =>
      ⟨some (Except.error (LexErr.unclosedStringDelimeter start)), [],
        r.2.2.next⟩

/-- Tokenizer::next_char, from `src/tokenizer/tokenizer.rs`: one character,
then the closing quote. -/
def next_char (chars : List Char) (pos : Position) : LexStep :=
  let start := pos
  match chars with
  | [] =>
      ⟨some (Except.error (LexErr.unexpectedChar pos '\'')), [], pos⟩
  | c :: rest =>
      let pos1 := pos.next
      match rest with
      | '\'' :: rest2 =>
          ⟨multi start pos1.next (TokenKind.character c), rest2, pos1.next⟩
      | d :: rest2 =>
          ⟨some (Except.error
              (LexErr.unclosedCharDelimeter start pos1.next (some d))),
            rest2, pos1.next⟩
      | [] =>
          ⟨some (Except.error
              (LexErr.unclosedCharDelimeter start pos1 Option.none)),
            [], pos1⟩

/-- Tokenizer::next_dash: `->` or `-`. -/
def next_dash (chars : List Char) (pos : Position) : LexStep :=
  match chars with
  | '>' :: rest => ⟨multi pos pos.next TokenKind.arrow, rest, pos.next⟩
  | _ => ⟨single pos TokenKind.sub, chars, pos⟩

/-- Tokenizer::next_equals: `=>`, `==`, or `=`. -/
def next_equals (chars : List Char) (pos : Position) : LexStep :=
  match chars with
  | '>' :: rest => ⟨multi pos pos.next TokenKind.doubleArrow, rest, pos.next⟩
  | '=' :: rest => ⟨multi pos pos.next TokenKind.equals, rest, pos.next⟩
  | _ => ⟨single pos TokenKind.assignment, chars, pos⟩

/-- Tokenizer::next_exclemation: `!=` or an `UnexpectedChar` error. The
character after `!` is consumed by `chars.next()` in both branches. -/
def next_exclemation (chars : List Char) (pos : Position) : LexStep :=
  match chars with
  | '=' :: rest => ⟨multi pos pos.next TokenKind.notEquals, rest, pos.next⟩
  | _ :: rest =>
      ⟨some (Except.error (LexErr.unexpectedChar pos.next '!')), rest, pos.next⟩
  | [] =>
      ⟨some (Except.error (LexErr.unexpectedChar pos.next '!')), [], pos.next⟩

/-- Tokenizer::next_greater: `>=` or `>`. -/
def next_greater (chars : List Char) (pos : Position) : LexStep :=
  match chars with
  | '=' :: rest => ⟨multi pos pos.next TokenKind.greaterEq, rest, pos.next⟩
  | _ => ⟨single pos TokenKind.greater, chars, pos⟩

/-- Tokenizer::next_less_than: `<=` or `<`. -/
def next_less_than (chars : List Char) (pos : Position) : LexStep :=
  match chars with
  | '=' :: rest => ⟨multi pos pos.next TokenKind.lessThanEq, rest, pos.next⟩
  | _ => ⟨single pos TokenKind.lessThan, chars, pos⟩

/-- Tokenizer::_next, from `src/tokenizer/tokenizer.rs`: advance the
position, read one character, and dispatch; spaces recurse, `\n` emits a
NewLine token and then moves the cursor to the next row. -/
def tok_next : List Char → Position → LexStep
  | [], pos => ⟨Option.none, [], pos⟩
  | c :: rest, pos0 =>
      let pos := pos0.next
      if c = ' ' then tok_next rest pos
      else if c = '+' then ⟨single pos TokenKind.add, rest, pos⟩
      else if c = '*' then ⟨single pos TokenKind.mul, rest, pos⟩
      else if c = '/' then ⟨single pos TokenKind.div, rest, pos⟩
      else if c = '%' then ⟨single pos TokenKind.mod, rest, pos⟩
      else if c = '^' then ⟨single pos TokenKind.pow, rest, pos⟩
      else if c = '(' then ⟨single pos TokenKind.leftParen, rest, pos⟩
      else if c = ')' then ⟨single pos TokenKind.rightParen, rest, pos⟩
      else if c = '\x7b' then ⟨single pos TokenKind.leftCurly, rest, pos⟩
      else if c = '\x7d' then ⟨single pos TokenKind.rightCurly, rest, pos⟩
      else if c = '[' then ⟨single pos TokenKind.leftBracket, rest, pos⟩
      else if c = ']' then ⟨single pos TokenKind.rightBracket, rest, pos⟩
      else if c = '\n' then ⟨single pos TokenKind.newLine, rest, pos.newline⟩
      else if c = '-' then next_dash rest pos
      else if c = '=' then next_equals rest pos
      else if c = '!' then next_exclemation rest pos
      else if c = '>' then next_greater rest pos
      else if c = '<' then next_less_than rest pos
      else if c = '"' then next_string rest pos
      else if c = '\'' then next_char rest pos
      else if c.isAlpha || c = '_' then next_identifier c rest pos
      else if c.isDigit then next_number c rest pos
      else ⟨some (Except.error (LexErr.unrecognizedChar pos c)), rest, pos⟩

/-- Driver for the tokenizer iterator: collect items until the stream ends
(`collect()` over the `Tokenizer` iterator). Fuel only guards the
recursion; `tokenize` supplies enough for any input. -/
def tokenize_aux : Nat → List Char → Position → List (Except LexErr Token)
  | 0, _, _ => []
  | fuel + 1, chars, pos =>
      match tok_next chars pos with
      | ⟨Option.none, _, _⟩ => []
      | ⟨some item, rest, pos'⟩ => item :: tokenize_aux fuel rest pos'

/-- Tokenize a whole source string from the initial position `(1, 0)`, as
`Tokenizer::new` + `collect()`. -/
def tokenize (s : String) : List (Except LexErr Token) :=
  tokenize_aux (s.length + 1) s.toList ⟨1, 0⟩

/-- AST nodes, from `src/parser/node.rs` (enum `Node`). `FuncDeclearion`
keeps the source's spelling; `If`/`While`/`Return`/`Index` are Lean
keywords or clash and are suffixed. -/
inductive Node where
  | atom (value : Token)
  | list (values : List Node)
  | binaryOp (left : Node) (operator : Token) (right : Node)
  | unaryOp (operator : Token) (value : Node)
  | funcDeclearion (identifier : Token) (arguments : List Token) (body : Node)
  | funcCall (identifier : Token) (parameters : List Node)
  | assignment (identifier : Token) (value : Node) (isDeclaration : Bool)
  | listAssignment (identifier : Token) (idx : Node) (value : Node)
  | access (identifier : Token)
  | indexNode (identifier : Token) (idx : Node)
  | ifStmt (condition : Node) (block : Node) (elseBlock : Option Node)
  | whileStmt (condition : Node) (block : Node)
  | returnStmt (value : Node)
  | program (statements : List Node)
deriving Repr

/-- Tags naming the six native built-in functions registered by
`SymbolTable::add_builtins` (`src/evaluator/builtins.rs`). The source
stores raw function pointers; the observable set is exactly these six, so
they are modelled as a closed enum dispatched by `apply_builtin`. -/
inductive BuiltinTag where
  | println
  | print
  | exit
  | input
  | integer
  | string
deriving DecidableEq, Repr

/-- Runtime values. The constructor set is the one required by
`src/evaluator/mod.rs` and `src/evaluator/builtins.rs` (the `Value` enum in
the older `src/evaluator/value.rs` carries only Integer/Float/Boolean; its
operator methods below extend to the full set through their own catch-all
match arms). `List` sharing through `Rc<RefCell<..>>` is not modelled. -/
inductive Value where
  | integer (n : Int)
  | float (f : F32)
  | boolean (b : Bool)
  | string (s : String)
  | character (c : Char)
  | list (values : List Value)
  | function (name : String) (arguments : List String) (body : Node)
  | builtInFunction (name : String) (arguments : List String) (tag : BuiltinTag)
  | none
deriving Repr

/-- Runtime errors, from `src/models/error.rs` (enum `Runtime`). The
`invalidOperation` field order preserves the source's convention: `right`
holds the value the method was called on and `left` the other operand.
`invalidValue` is used by `Evaluator::eval_if` in `src/evaluator/mod.rs`;
the `error.rs` in the tree predates it, so its payload `{expected, found}`
is taken from that call site. -/
inductive Runtime where
  | divisionByZero (division : Token)
  | invalidOperation (operator : Token) (right : Option Value) (left : Value)
  | unknownIdentifier (identifier : Token)
  | incorrectParameters (name : String) (call : Token)
      (expected : List String) (found : List Value)
  | invalidValue (expected : Value) (found : Value)
deriving Repr

/-- Outcome of a `Value` operator method: the Rust `Operation =
Result<Value, Error>` plus an explicit constructor for a Rust panic (which
in the source aborts instead of returning). -/
inductive OpOut where
  | ok (v : Value)
  | err (e : Runtime)
  | panicked
deriving Repr

/-- Rust f32 `!=`: true whenever either side is NaN. -/
def f32_bne (a b : F32) : Bool :=
  match a, b with
  | some x, some y => x != y
  | _, _ => true

/-- Value::add, from `src/evaluator/value.rs`: Integer+Integer and
Float+Float only; everything else falls to the catch-all
`invalid_operation!(operator, Some(right), left)` with `right` bound to the
receiver. Integer arithmetic wraps (release-mode Rust). -/
def Value.add (self other : Value) (operator : Token) : OpOut :=
  match self, other with
  | Value.integer a, Value.integer b => OpOut.ok (Value.integer (i32_wrap (a + b)))
  | Value.float a, Value.float b => OpOut.ok (Value.float (f32_add a b))
  | right, left => OpOut.err (Runtime.invalidOperation operator (some right) left)

/-- Value::uadd (unary `+`). -/
def Value.uadd (self : Value) (operator : Token) : OpOut :=
  match self with
  | Value.integer a => OpOut.ok (Value.integer a)
  | Value.float a => OpOut.ok (Value.float a)
  | left => OpOut.err (Runtime.invalidOperation operator Option.none left)

/-- Value::sub. -/
def Value.sub (self other : Value) (operator : Token) : OpOut :=
  match self, other with
  | Value.integer a, Value.integer b => OpOut.ok (Value.integer (i32_wrap (a - b)))
  | Value.float a, Value.float b => OpOut.ok (Value.float (f32_sub a b))
  | right, left => OpOut.err (Runtime.invalidOperation operator (some right) left)

/-- Value::usub (unary `-`). Negating `i32::MIN` wraps in release mode. -/
def Value.usub (self : Value) (operator : Token) : OpOut :=
  match self with
  | Value.integer a => OpOut.ok (Value.integer (i32_wrap (-a)))
  | Value.float a => OpOut.ok (Value.float (f32_sub (F32.fin 0) a))
  | left => OpOut.err (Runtime.invalidOperation operator Option.none left)

/-- Value::mul. -/
def Value.mul (self other : Value) (operator : Token) : OpOut :=
  match self, other with
  | Value.integer a, Value.integer b => OpOut.ok (Value.integer (i32_wrap (a * b)))
  | Value.float a, Value.float b => OpOut.ok (Value.float (f32_mul a b))
  | right, left => OpOut.err (Runtime.invalidOperation operator (some right) left)

/-- Value::div, from `src/evaluator/value.rs`: an Integer divisor `0` and a
Float divisor equal to `0.0` are caught before dividing and yield
`DivisionByZero { division: operator }`. Rust's `i32` division itself
panics on `i32::MIN / -1`. -/
def Value.div (self other : Value) (operator : Token) : OpOut :=
  match self, other with
  | Value.integer _, Value.integer 0 => OpOut.err (Runtime.divisionByZero operator)
  | Value.integer a, Value.integer b =>
      if a = i32_min ∧ b = -1 then OpOut.panicked
      else OpOut.ok (Value.integer (Int.tdiv a b))
  | Value.float a, Value.float b =>
      if f32_beq b (F32.fin 0) then OpOut.err (Runtime.divisionByZero operator)
      else OpOut.ok (Value.float (f32_div a b))
  | right, left => OpOut.err (Runtime.invalidOperation operator (some right) left)

/-- Value::modulo, from `src/evaluator/value.rs`. Unlike `div`, there is no
zero-divisor guard: the Rust `%` on `i32` panics when the divisor is `0`
(and on `i32::MIN % -1`), and the f32 `%` with divisor `0.0` produces NaN
inside an `Ok`. -/
def Value.modulo (self other : Value) (operator : Token) : OpOut :=
  match self, other with
  | Value.integer a, Value.integer b =>
      if b = 0 then OpOut.panicked
      else if a = i32_min ∧ b = -1 then OpOut.panicked
      else OpOut.ok (Value.integer (Int.tmod a b))
  | Value.float a, Value.float b => OpOut.ok (Value.float (f32_mod a b))
  | right, left => OpOut.err (Runtime.invalidOperation operator (some right) left)

/-- Value::pow, from `src/evaluator/value.rs`. The Integer^Integer branch
computes `(a as f64).powi(b) as i32`: modelled as the exact integer power
followed by the saturating `as i32` cast, which agrees with `f64` powi
whenever the true result stays below `2^53` in absolute value, as it does
for every input every theorem below evaluates. A negative Integer exponent
reaches `todo!()` and panics. The float branches call the transcendental
`powf`, modelled as NaN (no theorem evaluates them). -/
def Value.pow (self other : Value) (operator : Token) : OpOut :=
  match self, other with
  | Value.integer a, Value.integer b =>
      if b ≥ 0 then OpOut.ok (Value.integer (i32_sat (a ^ b.toNat)))
      else OpOut.panicked
  | Value.integer a, Value.float b =>
      OpOut.ok (Value.float (f32_powf (F32.fin (a : ℚ)) b))
  | Value.float a, Value.integer b =>
      OpOut.ok (Value.float (f32_powf a (F32.fin (b : ℚ))))
  | Value.float a, Value.float b => OpOut.ok (Value.float (f32_powf a b))
  | right, left => OpOut.err (Runtime.invalidOperation operator (some right) left)

/-- Value::not (unary). -/
def Value.not (self : Value) (operator : Token) : OpOut :=
  match self with
  | Value.boolean a => OpOut.ok (Value.boolean (!a))
  | left => OpOut.err (Runtime.invalidOperation operator Option.none left)

/-- Value::and. -/
def Value.and (self other : Value) (operator : Token) : OpOut :=
  match self, other with
  | Value.boolean a, Value.boolean b => OpOut.ok (Value.boolean (a && b))
  | right, left => OpOut.err (Runtime.invalidOperation operator (some right) left)

/-- Value::or. -/
def Value.or (self other : Value) (operator : Token) : OpOut :=
  match self, other with
  | Value.boolean a, Value.boolean b => OpOut.ok (Value.boolean (a || b))
  | right, left => OpOut.err (Runtime.invalidOperation operator (some right) left)

/-- Value::equals, from `src/evaluator/value.rs`: only Integer/Integer and
Float/Float are matched; every other pair, including Boolean/Boolean,
String/String, Character/Character and None/None, falls to the catch-all
invalid-operation arm. -/
def Value.equals (self other : Value) (operator : Token) : OpOut :=
  match self, other with
  | Value.integer a, Value.integer b => OpOut.ok (Value.boolean (a == b))
  | Value.float a, Value.float b => OpOut.ok (Value.boolean (f32_beq a b))
  | right, left => OpOut.err (Runtime.invalidOperation operator (some right) left)

/-- Value::not_equals, from `src/evaluator/value.rs`: Integer/Integer,
Float/Float, and Boolean/Boolean (computed as XOR); everything else is the
catch-all invalid-operation arm. -/
def Value.not_equals (self other : Value) (operator : Token) : OpOut :=
  match self, other with
  | Value.integer a, Value.integer b => OpOut.ok (Value.boolean (a != b))
  | Value.float a, Value.float b => OpOut.ok (Value.boolean (f32_bne a b))
  | Value.boolean a, Value.boolean b => OpOut.ok (Value.boolean (Bool.xor a b))
  | right, left => OpOut.err (Runtime.invalidOperation operator (some right) left)

/-- Value::greater. -/
def Value.greater (self other : Value) (operator : Token) : OpOut :=
  match self, other with
  | Value.integer a, Value.integer b => OpOut.ok (Value.boolean (decide (a > b)))
  | Value.float a, Value.float b => OpOut.ok (Value.boolean (f32_blt b a))
  | right, left => OpOut.err (Runtime.invalidOperation operator (some right) left)

/-- Value::greater_eq. -/
def Value.greater_eq (self other : Value) (operator : Token) : OpOut :=
  match self, other with
  | Value.integer a, Value.integer b => OpOut.ok (Value.boolean (decide (a ≥ b)))
  | Value.float a, Value.float b => OpOut.ok (Value.boolean (f32_ble b a))
  | right, left => OpOut.err (Runtime.invalidOperation operator (some right) left)

/-- Value::less_than. -/
def Value.less_than (self other : Value) (operator : Token) : OpOut :=
  match self, other with
  | Value.integer a, Value.integer b => OpOut.ok (Value.boolean (decide (a < b)))
  | Value.float a, Value.float b => OpOut.ok (Value.boolean (f32_blt a b))
  | right, left => OpOut.err (Runtime.invalidOperation operator (some right) left)

/-- Value::less_than_eq. -/
def Value.less_than_eq (self other : Value) (operator : Token) : OpOut :=
  match self, other with
  | Value.integer a, Value.integer b => OpOut.ok (Value.boolean (decide (a ≤ b)))
  | Value.float a, Value.float b => OpOut.ok (Value.boolean (f32_ble a b))
  | right, left => OpOut.err (Runtime.invalidOperation operator (some right) left)

/-- Value::binary_operation, from `src/evaluator/value.rs`: dispatch on the
operator token's kind; a non-operator kind hits `unreachable!()`. -/
def Value.binary_operation (self other : Value) (operator : Token) : OpOut :=
  match operator.kind with
  | TokenKind.add => Value.add self other operator
  | TokenKind.sub => Value.sub self other operator
  | TokenKind.mul => Value.mul self other operator
  | TokenKind.div => Value.div self other operator
  | TokenKind.mod => Value.modulo self other operator
  | TokenKind.pow => Value.pow self other operator
  | TokenKind.and => Value.and self other operator
  | TokenKind.or => Value.or self other operator
  | TokenKind.equals => Value.equals self other operator
  | TokenKind.notEquals => Value.not_equals self other operator
  | TokenKind.greater => Value.greater self other operator
  | TokenKind.greaterEq => Value.greater_eq self other operator
  | TokenKind.lessThan => Value.less_than self other operator
  | TokenKind.lessThanEq => Value.less_than_eq self other operator
  | _ => OpOut.panicked

/-- Value::unary_operation. -/
def Value.unary_operation (self : Value) (operator : Token) : OpOut :=
  match operator.kind with
  | TokenKind.add => Value.uadd self operator
  | TokenKind.sub => Value.usub self operator
  | TokenKind.not => Value.not self operator
  | _ => OpOut.panicked

/-- Value::from on a literal token (`Evaluator::eval_atom`). The
Integer/Float/Boolean arms are the `Value::from` of
`src/evaluator/value.rs`; the Character/String/None arms are Modelled from
the spec (the `value.rs` in the tree predates `parse_atom`'s literal set;
§3 of the spec maps each literal token to the value of the same name). Any
other kind hits `unreachable!()`. -/
def Value.from_token (token : Token) : Option Value :=
  match token.kind with
  | TokenKind.integer n => some (Value.integer n)
  | TokenKind.float f => some (Value.float f)
  | TokenKind.boolean b => some (Value.boolean b)
  | TokenKind.character c => some (Value.character c)
  | TokenKind.string s => some (Value.string s)
  | TokenKind.none => some Value.none
  | _ => Option.none

/-- The `value != Value::None` test of `eval_program`/`eval_while`
(discriminant comparison against the unit value). -/
def Value.isNone (v : Value) : Bool :=
  match v with
  | Value.none => true
  | _ => false

/-- Operand shapes accepted by `Value::equals` (classification helper for
the amended claim C3). -/
def equals_defined (a b : Value) : Bool :=
  match a, b with
  | Value.integer _, Value.integer _ => true
  | Value.float _, Value.float _ => true
  | _, _ => false

/-- Operand shapes accepted by `Value::not_equals`. -/
def not_equals_defined (a b : Value) : Bool :=
  match a, b with
  | Value.integer _, Value.integer _ => true
  | Value.float _, Value.float _ => true
  | Value.boolean _, Value.boolean _ => true
  | _, _ => false

/-- Operand shapes accepted by `Value::add`. -/
def add_defined (a b : Value) : Bool :=
  match a, b with
  | Value.integer _, Value.integer _ => true
  | Value.float _, Value.float _ => true
  | _, _ => false

/-- Value::list_assign, called by `Evaluator::eval_list_assignment`.
Modelled from the spec: the method lives in the newer `value.rs` that is
not in the tree; §4.3 specifies `List[Integer] = Value`, in place through
the shared handle, bounds-checked, with out-of-range an error. The
mutation through the shared handle and the exact error payload are not
modelled; no theorem below evaluates this function. -/
def Value.list_assign (self index _value : Value) (identifier : Token) : OpOut :=
  match self, index with
  | Value.list elems, Value.integer i =>
      if 0 ≤ i ∧ i < (elems.length : Int) then OpOut.ok Value.none
      else OpOut.err (Runtime.invalidOperation identifier (some index) self)
  | right, left => OpOut.err (Runtime.invalidOperation identifier (some right) left)

/-- Value::index, called by `Evaluator::eval_index`. Modelled from the
spec: §4.3 specifies `String[Integer] → Character` and `List[Integer] →
Value` clone, bounds-checked, out-of-range an error (exact payload not in
the tree). No theorem below evaluates this function. -/
def Value.index_op (self index : Value) (identifier : Token) : OpOut :=
  match self, index with
  | Value.string s, Value.integer i =>
      if 0 ≤ i ∧ i < (s.length : Int) then
        OpOut.ok (Value.character (s.toList.getD i.toNat ' '))
      else OpOut.err (Runtime.invalidOperation identifier (some index) self)
  | Value.list elems, Value.integer i =>
      if 0 ≤ i ∧ i < (elems.length : Int) then
        OpOut.ok (elems.getD i.toNat Value.none)
      else OpOut.err (Runtime.invalidOperation identifier (some index) self)
  | right, left => OpOut.err (Runtime.invalidOperation identifier (some right) left)

/-- One scope of the symbol table: the `HashMap<String, Value>` of
`src/evaluator/symbol_table.rs`, modelled as an association list with
first-match lookup and replace-or-append insertion (only per-key behaviour
is observable). -/
abbrev Scope := List (String × Value)

/-- HashMap::get on one scope. -/
def scope_get : Scope → String → Option Value
  | [], _ => Option.none
  | (k, v) :: rest, key => if k = key then some v else scope_get rest key

/-- HashMap::insert on one scope: replace the existing binding or add a new
one. -/
def scope_insert : Scope → String → Value → Scope
  | [], key, value => [(key, value)]
  | (k, v) :: rest, key, value =>
      if k = key then (key, value) :: rest
      else (k, v) :: scope_insert rest key value

/-- The symbol table, from `src/evaluator/symbol_table.rs`: a `Vec` of
scopes. `new` makes one scope; `scope()` PUSHES AT THE END of the vector
and `unscope()` removes the last element, while `insert` writes to
`tables.first_mut()` (index 0) and `get`/`get_mut` iterate from index 0
upward. Index 0 is therefore the table created first (the global,
outermost scope) and the vector order is outermost-first. -/
structure SymbolTable where
  tables : List Scope
deriving Repr

/-- SymbolTable::new: a single empty scope. -/
def SymbolTable.new : SymbolTable := ⟨[[]]⟩

/-- SymbolTable::insert: writes into `tables.first_mut()`, i.e. the FIRST
(outermost) table; panics (`none` here) when the vector is empty. -/
def SymbolTable.insert (st : SymbolTable) (identifier : String)
    (value : Value) : Option SymbolTable :=
  match st.tables with
  | [] => Option.none
  | first :: rest => some ⟨scope_insert first identifier value :: rest⟩

/-- The iteration of `SymbolTable::get`: scan the scopes in vector order
(index 0 first, i.e. outermost first) and return the first hit. -/
def tables_get : List Scope → String → Option Value
  | [], _ => Option.none
  | t :: rest, key =>
      match scope_get t key with
      | some v => some v
      | Option.none => tables_get rest key

/-- SymbolTable::get. -/
def SymbolTable.get (st : SymbolTable) (identifier : String) : Option Value :=
  tables_get st.tables identifier

/-- The write through `SymbolTable::get_mut` done by `eval_assignment`'s
mutation path: replace the value in the first scope (in vector order, so
outermost first) that contains the key; `none` when no scope does. -/
def tables_update : List Scope → String → Value → Option (List Scope)
  | [], _, _ => Option.none
  | t :: rest, key, value =>
      if (scope_get t key).isSome then some (scope_insert t key value :: rest)
      else
        match tables_update rest key value with
        | some rest' => some (t :: rest')
        | Option.none => Option.none

/-- SymbolTable::get_mut followed by `*old = value`. -/
def SymbolTable.get_mut_set (st : SymbolTable) (identifier : String)
    (value : Value) : Option SymbolTable :=
  match tables_update st.tables identifier value with
  | some ts => some ⟨ts⟩
  | Option.none => Option.none

/-- SymbolTable::scope: push a fresh scope AT THE END of the vector. -/
def SymbolTable.scope (st : SymbolTable) : SymbolTable :=
  ⟨st.tables ++ [[]]⟩

/-- SymbolTable::unscope: remove the last scope; panics (`none`) when only
the main table would remain empty (`len <= 1`). -/
def SymbolTable.unscope (st : SymbolTable) : Option SymbolTable :=
  if st.tables.length ≤ 1 then Option.none else some ⟨st.tables.dropLast⟩

/-- The `builtin` constructor of `src/evaluator/builtins.rs`: a name, the
parameter names, and the native function (a tag here). -/
def builtin (name : String) (argNames : List String) (tag : BuiltinTag) :
    String × Value :=
  (name, Value.builtInFunction name argNames tag)

/-- SymbolTable::add_builtins: the six insertions, in source order. -/
def SymbolTable.add_builtins (st : SymbolTable) : Option SymbolTable :=
  (st.insert ("println") (builtin ("println") ["x"] BuiltinTag.println).2).bind
    (fun s => (s.insert ("print") (builtin ("print") ["x"] BuiltinTag.print).2).bind
    (fun s => (s.insert ("exit") (builtin ("exit") ["exit_code"] BuiltinTag.exit).2).bind
    (fun s => (s.insert ("input") (builtin ("input") [] BuiltinTag.input).2).bind
    (fun s => (s.insert ("integer") (builtin ("integer") ["string"] BuiltinTag.integer).2).bind
    (fun s => s.insert ("string") (builtin ("string") ["value"] BuiltinTag.string).2)))))

/-- The symbol table `Evaluator::new` starts from: one scope holding the
six built-ins. -/
def initial_table : SymbolTable :=
  (SymbolTable.new.add_builtins).getD SymbolTable.new

/-- Outcome of a native built-in call: a returned value, process
termination (`process::exit`), or a panic (`todo!`). -/
inductive BuiltinRes where
  | value (v : Value)
  | terminated (code : Int)
  | panicked
deriving Repr

/-- Signed `str::parse::<i32>`, used by the `integer` built-in (an optional
sign followed by digits; value must fit in `i32`). -/
def parse_i32_full (s : String) : Option Int :=
  match s.toList with
  | '-' :: rest =>
      match (String.mk rest).toNat? with
      | some n => if (n : Int) ≤ 2 ^ 31 then some (-(n : Int)) else Option.none
      | Option.none => Option.none
  | '+' :: rest =>
      match (String.mk rest).toNat? with
      | some n => if (n : Int) ≤ 2 ^ 31 - 1 then some (n : Int) else Option.none
      | Option.none => Option.none
  | _ => parse_i32 s

/-- Display form of a value, used by the `string` built-in. Modelled from
the spec ("stringify any Value via its display form"): the `Display` impl
is in the newer `value.rs` not in the tree. No theorem below depends on the
exact strings. -/
def display_value (v : Value) : String :=
  match v with
  | Value.integer n => toString n
  | Value.float (some q) => toString q
  | Value.float Option.none => "NaN"
  | Value.boolean b => cond b ("true") ("false")
  | Value.string s => s
  | Value.character c => String.mk [c]
  | Value.list _ => "<list>"
  | Value.function name _ _ => name
  | Value.builtInFunction name _ _ => name
  | Value.none => "none"

/-- builtins::println (stdout is outside the model). -/
def builtins_println (values : List Value) : BuiltinRes :=
  if values.length ≠ 1 then BuiltinRes.panicked
  else BuiltinRes.value Value.none

/-- builtins::print (stdout is outside the model). -/
def builtins_print (values : List Value) : BuiltinRes :=
  if values.length ≠ 1 then BuiltinRes.panicked
  else BuiltinRes.value Value.none

/-- builtins::input. Stdin is outside the model; modelled as the
read-failure path, which returns None. -/
def builtins_input (values : List Value) : BuiltinRes :=
  if values.length ≠ 0 then BuiltinRes.panicked
  else BuiltinRes.value Value.none

/-- builtins::exit, from `src/evaluator/builtins.rs`: with one Integer
argument in `[0, 255]` the process terminates with that code; an Integer
outside the range hits `todo!()` and panics; any non-Integer single
argument falls through and returns None. -/
def builtins_exit (values : List Value) : BuiltinRes :=
  if values.length ≠ 1 then BuiltinRes.panicked
  else
    match values.headD Value.none with
    | Value.integer int =>
        if 0 ≤ int ∧ int ≤ 255 then BuiltinRes.terminated int
        else BuiltinRes.panicked
    | _ => BuiltinRes.value Value.none

/-- builtins::integer: parse a String to Integer, None on failure or on a
non-String argument. -/
def builtins_integer (values : List Value) : BuiltinRes :=
  if values.length ≠ 1 then BuiltinRes.panicked
  else
    match values.headD Value.none with
    | Value.string s =>
        match parse_i32_full s with
        | some n => BuiltinRes.value (Value.integer n)
        | Option.none => BuiltinRes.value Value.none
    | _ => BuiltinRes.value Value.none

/-- builtins::string: stringify via the display form. -/
def builtins_string (values : List Value) : BuiltinRes :=
  if values.length ≠ 1 then BuiltinRes.panicked
  else BuiltinRes.value (Value.string (display_value (values.headD Value.none)))

/-- Dispatch a built-in tag to its native function. -/
def apply_builtin (tag : BuiltinTag) (values : List Value) : BuiltinRes :=
  match tag with
  | BuiltinTag.println => builtins_println values
  | BuiltinTag.print => builtins_print values
  | BuiltinTag.exit => builtins_exit values
  | BuiltinTag.input => builtins_input values
  | BuiltinTag.integer => builtins_integer values
  | BuiltinTag.string => builtins_string values

/-- Result of one `Evaluator::evaluate` call: an `Ok` value, an `Err`
runtime error, a Rust panic (aborts, no cleanup), or process termination
via the `exit` built-in. -/
inductive RunRes where
  | val (v : Value)
  | err (e : Runtime)
  | panicked
  | exited (code : Int)
deriving Repr

/-- A run result the Rust function actually returns to its caller (`Ok` or
`Err`), as opposed to aborting the process (panic or exit). -/
def RunRes.isCompletion : RunRes → Bool
  | RunRes.val _ => true
  | RunRes.err _ => true
  | _ => false

/-- Lift an operator outcome into a run result. -/
def op_to_run : OpOut → RunRes
  | OpOut.ok v => RunRes.val v
  | OpOut.err e => RunRes.err e
  | OpOut.panicked => RunRes.panicked

/-- Result of evaluating a list of expressions (`eval_list` / the parameter
loop of `eval_func_call`): either all values, or the first non-`Ok`
outcome, with the symbol table threaded through. -/
inductive ValuesRes where
  | ok (vs : List Value) (st : SymbolTable)
  | stop (r : RunRes) (st : SymbolTable)
deriving Repr

/-- The argument-name extraction of `eval_func_declaration`: every argument
token must be an identifier, anything else panics. -/
def args_to_names : List Token → Option (List String)
  | [] => some []
  | t :: rest =>
      match t.kind with
      | TokenKind.identifier n => (args_to_names rest).map (fun ns => n :: ns)
      | _ => Option.none

/-- The parameter-binding loop of `eval_func_call`: insert each
`(name, value)` pair via `SymbolTable::insert`. -/
def insert_all (st : SymbolTable) : List (String × Value) → Option SymbolTable
  | [] => some st
  | (k, v) :: rest =>
      match st.insert k v with
      | some st' => insert_all st' rest
      | Option.none => Option.none

mutual

/-- Evaluator::evaluate, from `src/evaluator/mod.rs`, with a fuel parameter
(`Option.none` = fuel ran out). State (the symbol table) is threaded
explicitly; the returned table is the table at the moment the Rust function
returns (or aborts). -/
def evaluate : Nat → Node → SymbolTable → Option (RunRes × SymbolTable)
  | 0, _, _ => Option.none
  | fuel + 1, node, st =>
      match node with
      | Node.atom value =>
          match Value.from_token value with
          | some v => some (RunRes.val v, st)
          | Option.none => some (RunRes.panicked, st)
      | Node.list values =>
          match eval_values fuel values st with
          | Option.none => Option.none
          | some (ValuesRes.ok vs st') => some (RunRes.val (Value.list vs), st')
          | some (ValuesRes.stop r st') => some (r, st')
      | Node.binaryOp left operator right =>
          match evaluate fuel right st with
          | Option.none => Option.none
          | some (RunRes.val rv, st1) =>
              match evaluate fuel left st1 with
              | Option.none => Option.none
              | some (RunRes.val lv, st2) =>
                  some (op_to_run (Value.binary_operation lv rv operator), st2)
              | some (r, st2) => some (r, st2)
          | some (r, st1) => some (r, st1)
      | Node.unaryOp operator value =>
          match evaluate fuel value st with
          | Option.none => Option.none
          | some (RunRes.val v, st1) =>
              some (op_to_run (Value.unary_operation v operator), st1)
          | some (r, st1) => some (r, st1)
      | Node.assignment identifier value isDeclaration =>
          match evaluate fuel value st with
          | Option.none => Option.none
          | some (RunRes.val v, st1) =>
              match identifier.kind with
              | TokenKind.identifier name =>
                  if isDeclaration then
                    match st1.insert name v with
                    | some st2 => some (RunRes.val Value.none, st2)
                    | Option.none => some (RunRes.panicked, st1)
                  else
                    match st1.get_mut_set name v with
                    | some st2 => some (RunRes.val Value.none, st2)
                    | Option.none =>
                        some (RunRes.err (Runtime.unknownIdentifier identifier), st1)
              | _ => some (RunRes.panicked, st1)
          | some (r, st1) => some (r, st1)
      | Node.listAssignment identifier idx value =>
          match evaluate fuel value st with
          | Option.none => Option.none
          | some (RunRes.val v, st1) =>
              match evaluate fuel idx st1 with
              | Option.none => Option.none
              | some (RunRes.val iv, st2) =>
                  match identifier.kind with
                  | TokenKind.identifier name =>
                      match st2.get name with
                      | some lst =>
                          some (op_to_run (Value.list_assign lst iv v identifier), st2)
                      | Option.none =>
                          some (RunRes.err (Runtime.unknownIdentifier identifier), st2)
                  | _ => some (RunRes.panicked, st2)
              | some (r, st2) => some (r, st2)
          | some (r, st1) => some (r, st1)
      | Node.access identifier =>
          match identifier.kind with
          | TokenKind.identifier name =>
              match st.get name with
              | some v => some (RunRes.val v, st)
              | Option.none =>
                  some (RunRes.err (Runtime.unknownIdentifier identifier), st)
          | _ => some (RunRes.panicked, st)
      | Node.indexNode identifier idx =>
          match evaluate fuel idx st with
          | Option.none => Option.none
          | some (RunRes.val iv, st1) =>
              match identifier.kind with
              | TokenKind.identifier name =>
                  match st1.get name with
                  | some v => some (op_to_run (Value.index_op v iv identifier), st1)
                  | Option.none =>
                      some (RunRes.err (Runtime.unknownIdentifier identifier), st1)
              | _ => some (RunRes.panicked, st1)
          | some (r, st1) => some (r, st1)
      | Node.program statements => eval_stmts fuel statements st
      | Node.ifStmt condition block elseBlock =>
          match evaluate fuel condition st with
          | Option.none => Option.none
          | some (RunRes.val (Value.boolean true), st1) => evaluate fuel block st1
          | some (RunRes.val (Value.boolean false), st1) =>
              match elseBlock with
              | some eb => evaluate fuel eb st1
              | Option.none => some (RunRes.val Value.none, st1)
          | some (RunRes.val other, st1) =>
              some (RunRes.err (Runtime.invalidValue (Value.boolean false) other), st1)
          | some (r, st1) => some (r, st1)
      | Node.whileStmt condition block => eval_while fuel condition block st
      | Node.funcDeclearion identifier arguments body =>
          match identifier.kind with
          | TokenKind.identifier n =>
              match args_to_names arguments with
              | some names =>
                  match st.insert n (Value.function n names body) with
                  | some st1 => some (RunRes.val Value.none, st1)
                  | Option.none => some (RunRes.panicked, st)
              | Option.none => some (RunRes.panicked, st)
          | _ => some (RunRes.panicked, st)
      | Node.funcCall identifier parameters =>
          match eval_values fuel parameters st with
          | Option.none => Option.none
          | some (ValuesRes.stop r st1) => some (r, st1)
          | some (ValuesRes.ok values st1) =>
              match identifier.kind with
              | TokenKind.identifier name =>
                  match st1.get name with
                  | some (Value.function fname fargs fbody) =>
                      if fargs.length ≠ parameters.length then
                        some (RunRes.err
                          (Runtime.incorrectParameters fname identifier fargs values),
                          st1)
                      else
                        match insert_all st1.scope (fargs.zip values) with
                        | Option.none => some (RunRes.panicked, st1.scope)
                        | some st2 =>
                            match evaluate fuel fbody st2 with
                            | Option.none => Option.none
                            | some (RunRes.val v, st3) =>
                                match st3.unscope with
                                | some st4 => some (RunRes.val v, st4)
                                | Option.none => some (RunRes.panicked, st3)
                            | some (RunRes.err e, st3) =>
                                match st3.unscope with
                                | some st4 => some (RunRes.err e, st4)
                                | Option.none => some (RunRes.panicked, st3)
                            | some (r, st3) => some (r, st3)
                  | some (Value.builtInFunction bname bargs tag) =>
                      if bargs.length ≠ parameters.length then
                        some (RunRes.err
                          (Runtime.incorrectParameters bname identifier bargs values),
                          st1)
                      else
                        match apply_builtin tag values with
                        | BuiltinRes.value v => some (RunRes.val v, st1)
                        | BuiltinRes.terminated c => some (RunRes.exited c, st1)
                        | BuiltinRes.panicked => some (RunRes.panicked, st1)
                  | _ =>
                      some (RunRes.err (Runtime.unknownIdentifier identifier), st1)
              | _ => some (RunRes.panicked, st1)
      | Node.returnStmt value => evaluate fuel value st
termination_by fuel _n _s => (fuel, 1)

/-- Evaluator::eval_program, from `src/evaluator/mod.rs`: run the
statements in order; the first statement whose value is not `None` breaks
the loop and its value is the block's result; exhausting the list yields
the running value (`None`). -/
def eval_stmts : Nat → List Node → SymbolTable → Option (RunRes × SymbolTable)
  | _, [], st => some (RunRes.val Value.none, st)
  | fuel, s :: rest, st =>
      match evaluate fuel s st with
      | Option.none => Option.none
      | some (RunRes.val v, st1) =>
          if v.isNone then eval_stmts fuel rest st1
          else some (RunRes.val v, st1)
      | some (r, st1) => some (r, st1)
termination_by fuel stmts _s => (fuel, stmts.length + 2)

/-- Evaluator::eval_list and the parameter loop of `eval_func_call`:
evaluate expressions left to right, collecting the values and propagating
the first non-`Ok` outcome. -/
def eval_values : Nat → List Node → SymbolTable → Option ValuesRes
  | _, [], st => some (ValuesRes.ok [] st)
  | fuel, n :: rest, st =>
      match evaluate fuel n st with
      | Option.none => Option.none
      | some (RunRes.val v, st1) =>
          match eval_values fuel rest st1 with
          | Option.none => Option.none
          | some (ValuesRes.ok vs st2) => some (ValuesRes.ok (v :: vs) st2)
          | some (ValuesRes.stop r st2) => some (ValuesRes.stop r st2)
      | some (r, st1) => some (ValuesRes.stop r st1)
termination_by fuel nodes _s => (fuel, nodes.length + 2)

/-- Evaluator::eval_while, from `src/evaluator/mod.rs`: while the condition
evaluates to `Boolean(true)`, evaluate the body; the first body value that
is not `None` breaks the loop and is returned. When the condition's value
fails the `Boolean(true)` pattern the loop exits returning the running
value, which at a condition check is always `None`. -/
def eval_while : Nat → Node → Node → SymbolTable → Option (RunRes × SymbolTable)
  | 0, _, _, _ => Option.none
  | fuel + 1, condition, block, st =>
      match evaluate fuel condition st with
      | Option.none => Option.none
      | some (RunRes.val (Value.boolean true), st1) =>
          match evaluate fuel block st1 with
          | Option.none => Option.none
          | some (RunRes.val v, st2) =>
              if v.isNone then eval_while fuel condition block st2
              else some (RunRes.val v, st2)
          | some (r, st2) => some (r, st2)
      | some (RunRes.val _, st1) => some (RunRes.val Value.none, st1)
      | some (r, st1) => some (r, st1)
termination_by fuel _c _b _s => (fuel, 2)

end

/-- Parser errors: the `Syntax` variants raised by `src/parser/mod.rs`
plus a forwarded lexical error (`Box<dyn MonoError>` in the source). -/
inductive ParseErr where
  | lex (e : LexErr)
  | unexpectedToken (token : Token) (expected : List TokenKind)
  | unclosedTokenDelimeter (start : Token) (found : Option Token)
      (delimiter : TokenKind)
  | unexpectedEOF
deriving DecidableEq, Repr

/-- The parser's view of the tokenizer: the remaining stream of
tokens-or-lexical-errors; `peek` is the head, `next` pops it. -/
abbrev TokStream := List (Except LexErr Token)

/-- Token::COMPERATORS, from `src/tokenizer/token.rs`. -/
def comperators : List TokenKind :=
  [TokenKind.equals, TokenKind.notEquals, TokenKind.greater,
    TokenKind.greaterEq, TokenKind.lessThan, TokenKind.lessThanEq]

/-- Parser::expect_token. -/
def expect_token (expected : TokenKind) (ts : TokStream) :
    Except ParseErr (Token × TokStream) :=
  match ts with
  | [] => Except.error ParseErr.unexpectedEOF
  | Except.error e :: _ => Except.error (ParseErr.lex e)
  | Except.ok t :: rest =>
      if t.kind = expected then Except.ok (t, rest)
      else Except.error (ParseErr.unexpectedToken t [expected])

/-- Parser::close_delimiter. -/
def close_delimiter (start : Token) (delimiter : TokenKind) (ts : TokStream) :
    Except ParseErr TokStream :=
  match ts with
  | [] => Except.error (ParseErr.unclosedTokenDelimeter start Option.none delimiter)
  | Except.error e :: _ => Except.error (ParseErr.lex e)
  | Except.ok t :: rest =>
      if t.kind = delimiter then Except.ok rest
      else Except.error (ParseErr.unclosedTokenDelimeter start (some t) delimiter)

/-- The `expected` list of `parse_atom`'s rejection arm, with the payload
placeholders the source uses. -/
def atom_expected : List TokenKind :=
  [TokenKind.leftParen, TokenKind.integer 0, TokenKind.float (F32.fin 0),
    TokenKind.identifier (""), TokenKind.string (""), TokenKind.character ' ',
    TokenKind.add, TokenKind.sub]

mutual

/-- Parser::parse_atom, from `src/parser/mod.rs` (expression layer only;
the statement grammar is not needed by any claim). Fuel (`Option.none` =
ran out) guards the mutual grammar recursion. -/
def parse_atom : Nat → TokStream → Option (Except ParseErr (Node × TokStream))
  | 0, _ => Option.none
  | fuel + 1, ts =>
      match ts with
      | [] => some (Except.error ParseErr.unexpectedEOF)
      | Except.error e :: _ => some (Except.error (ParseErr.lex e))
      | Except.ok token :: rest =>
          match token.kind with
          | TokenKind.leftParen =>
              match parse_bool_expr fuel rest with
              | Option.none => Option.none
              | some (Except.error e) => some (Except.error e)
              | some (Except.ok (node, ts1)) =>
                  match close_delimiter token TokenKind.rightParen ts1 with
                  | Except.error e => some (Except.error e)
                  | Except.ok ts2 => some (Except.ok (node, ts2))
          | TokenKind.leftBracket =>
              match parse_parameters fuel TokenKind.rightBracket rest with
              | Option.none => Option.none
              | some (Except.error e) => some (Except.error e)
              | some (Except.ok (values, ts1)) =>
                  match close_delimiter token TokenKind.rightBracket ts1 with
                  | Except.error e => some (Except.error e)
                  | Except.ok ts2 => some (Except.ok (Node.list values, ts2))
          | TokenKind.integer _ => some (Except.ok (Node.atom token, rest))
          | TokenKind.float _ => some (Except.ok (Node.atom token, rest))
          | TokenKind.boolean _ => some (Except.ok (Node.atom token, rest))
          | TokenKind.character _ => some (Except.ok (Node.atom token, rest))
          | TokenKind.string _ => some (Except.ok (Node.atom token, rest))
          | TokenKind.none => some (Except.ok (Node.atom token, rest))
          | TokenKind.identifier _ =>
              match rest with
              | Except.ok paren :: _ =>
                  if paren.kind = TokenKind.leftParen then
                    parse_func_call fuel token rest
                  else if paren.kind = TokenKind.leftBracket then
                    parse_index fuel token rest
                  else some (Except.ok (Node.access token, rest))
              | _ => some (Except.ok (Node.access token, rest))
          | _ => some (Except.error (ParseErr.unexpectedToken token atom_expected))

/-- Parser::parse_func_call. -/
def parse_func_call : Nat → Token → TokStream →
    Option (Except ParseErr (Node × TokStream))
  | 0, _, _ => Option.none
  | fuel + 1, identifier, ts =>
      match expect_token TokenKind.leftParen ts with
      | Except.error e => some (Except.error e)
      | Except.ok (start, ts1) =>
          match parse_parameters fuel TokenKind.rightParen ts1 with
          | Option.none => Option.none
          | some (Except.error e) => some (Except.error e)
          | some (Except.ok (parameters, ts2)) =>
              match close_delimiter start TokenKind.rightParen ts2 with
              | Except.error e => some (Except.error e)
              | Except.ok ts3 =>
                  some (Except.ok (Node.funcCall identifier parameters, ts3))

/-- Parser::parse_index. -/
def parse_index : Nat → Token → TokStream →
    Option (Except ParseErr (Node × TokStream))
  | 0, _, _ => Option.none
  | fuel + 1, identifier, ts =>
      match expect_token TokenKind.leftBracket ts with
      | Except.error e => some (Except.error e)
      | Except.ok (start, ts1) =>
          match parse_expr fuel ts1 with
          | Option.none => Option.none
          | some (Except.error e) => some (Except.error e)
          | some (Except.ok (idx, ts2)) =>
              match close_delimiter start TokenKind.rightBracket ts2 with
              | Except.error e => some (Except.error e)
              | Except.ok ts3 =>
                  some (Except.ok (Node.indexNode identifier idx, ts3))

/-- Parser::parse_parameters: the early-return on an immediate delimiter. -/
def parse_parameters : Nat → TokenKind → TokStream →
    Option (Except ParseErr (List Node × TokStream))
  | 0, _, _ => Option.none
  | fuel + 1, delimiter, ts =>
      match ts with
      | Except.ok t :: _ =>
          if t.kind = delimiter then some (Except.ok ([], ts))
          else parse_parameters_loop fuel delimiter ts
      | _ => parse_parameters_loop fuel delimiter ts

/-- The element loop of `Parser::parse_parameters`: one `parse_bool_expr`
per element, then the delimiter breaks (unconsumed), a comma continues, and
anything else is an `UnexpectedToken` (consumed). -/
def parse_parameters_loop : Nat → TokenKind → TokStream →
    Option (Except ParseErr (List Node × TokStream))
  | 0, _, _ => Option.none
  | fuel + 1, delimiter, ts =>
      match parse_bool_expr fuel ts with
      | Option.none => Option.none
      | some (Except.error e) => some (Except.error e)
      | some (Except.ok (p, ts1)) =>
          match ts1 with
          | Except.ok t :: rest =>
              if t.kind = delimiter then some (Except.ok ([p], ts1))
              else if t.kind = TokenKind.comma then
                match parse_parameters_loop fuel delimiter rest with
                | Option.none => Option.none
                | some (Except.error e) => some (Except.error e)
                | some (Except.ok (ps, ts2)) => some (Except.ok (p :: ps, ts2))
              else
                some (Except.error
                  (ParseErr.unexpectedToken t [delimiter, TokenKind.comma]))
          | Except.error e :: _ => some (Except.error (ParseErr.lex e))
          | [] => some (Except.ok ([p], ts1))

/-- Parser::parse_power: `parse_binary_op(&[Pow], parse_atom,
parse_factor)` — the left operand comes from `parse_atom`, and each right
operand recurses through `parse_factor`. -/
def parse_power : Nat → TokStream → Option (Except ParseErr (Node × TokStream))
  | 0, _ => Option.none
  | fuel + 1, ts =>
      match parse_atom fuel ts with
      | Option.none => Option.none
      | some (Except.error e) => some (Except.error e)
      | some (Except.ok (root, ts1)) => power_loop fuel root ts1

/-- The operator loop of `parse_binary_op` instantiated for `parse_power`. -/
def power_loop : Nat → Node → TokStream →
    Option (Except ParseErr (Node × TokStream))
  | 0, _, _ => Option.none
  | fuel + 1, root, ts =>
      match ts with
      | Except.ok t :: rest =>
          if [TokenKind.pow].contains t.kind then
            match parse_factor fuel rest with
            | Option.none => Option.none
            | some (Except.error e) => some (Except.error e)
            | some (Except.ok (right, ts1)) =>
                power_loop fuel (Node.binaryOp root t right) ts1
          else some (Except.ok (root, ts))
      | _ => some (Except.ok (root, ts))

/-- Parser::parse_factor: prefix unary `-`/`+` recursing through itself,
defaulting to `parse_power`. -/
def parse_factor : Nat → TokStream → Option (Except ParseErr (Node × TokStream))
  | 0, _ => Option.none
  | fuel + 1, ts =>
      match ts with
      | Except.ok t :: rest =>
          if [TokenKind.sub, TokenKind.add].contains t.kind then
            match parse_factor fuel rest with
            | Option.none => Option.none
            | some (Except.error e) => some (Except.error e)
            | some (Except.ok (value, ts1)) =>
                some (Except.ok (Node.unaryOp t value, ts1))
          else parse_power fuel ts
      | _ => parse_power fuel ts

/-- Parser::parse_term: `*`, `/`, `%` over `parse_factor`. -/
def parse_term : Nat → TokStream → Option (Except ParseErr (Node × TokStream))
  | 0, _ => Option.none
  | fuel + 1, ts =>
      match parse_factor fuel ts with
      | Option.none => Option.none
      | some (Except.error e) => some (Except.error e)
      | some (Except.ok (root, ts1)) => term_loop fuel root ts1

/-- The operator loop of `parse_term`. -/
def term_loop : Nat → Node → TokStream →
    Option (Except ParseErr (Node × TokStream))
  | 0, _, _ => Option.none
  | fuel + 1, root, ts =>
      match ts with
      | Except.ok t :: rest =>
          if [TokenKind.mul, TokenKind.div, TokenKind.mod].contains t.kind then
            match parse_factor fuel rest with
            | Option.none => Option.none
            | some (Except.error e) => some (Except.error e)
            | some (Except.ok (right, ts1)) =>
                term_loop fuel (Node.binaryOp root t right) ts1
          else some (Except.ok (root, ts))
      | _ => some (Except.ok (root, ts))

/-- Parser::parse_expr: `+`, `-` over `parse_term`. -/
def parse_expr : Nat → TokStream → Option (Except ParseErr (Node × TokStream))
  | 0, _ => Option.none
  | fuel + 1, ts =>
      match parse_term fuel ts with
      | Option.none => Option.none
      | some (Except.error e) => some (Except.error e)
      | some (Except.ok (root, ts1)) => expr_loop fuel root ts1

/-- The operator loop of `parse_expr`. -/
def expr_loop : Nat → Node → TokStream →
    Option (Except ParseErr (Node × TokStream))
  | 0, _, _ => Option.none
  | fuel + 1, root, ts =>
      match ts with
      | Except.ok t :: rest =>
          if [TokenKind.add, TokenKind.sub].contains t.kind then
            match parse_term fuel rest with
            | Option.none => Option.none
            | some (Except.error e) => some (Except.error e)
            | some (Except.ok (right, ts1)) =>
                expr_loop fuel (Node.binaryOp root t right) ts1
          else some (Except.ok (root, ts))
      | _ => some (Except.ok (root, ts))

/-- Parser::parse_comparison: the six comparison operators over
`parse_expr`. -/
def parse_comparison : Nat → TokStream →
    Option (Except ParseErr (Node × TokStream))
  | 0, _ => Option.none
  | fuel + 1, ts =>
      match parse_expr fuel ts with
      | Option.none => Option.none
      | some (Except.error e) => some (Except.error e)
      | some (Except.ok (root, ts1)) => comparison_loop fuel root ts1

/-- The operator loop of `parse_comparison`. -/
def comparison_loop : Nat → Node → TokStream →
    Option (Except ParseErr (Node × TokStream))
  | 0, _, _ => Option.none
  | fuel + 1, root, ts =>
      match ts with
      | Except.ok t :: rest =>
          if comperators.contains t.kind then
            match parse_expr fuel rest with
            | Option.none => Option.none
            | some (Except.error e) => some (Except.error e)
            | some (Except.ok (right, ts1)) =>
                comparison_loop fuel (Node.binaryOp root t right) ts1
          else some (Except.ok (root, ts))
      | _ => some (Except.ok (root, ts))

/-- Parser::parse_bool_factor: prefix `not` recursing through itself,
defaulting to `parse_comparison`. -/
def parse_bool_factor : Nat → TokStream →
    Option (Except ParseErr (Node × TokStream))
  | 0, _ => Option.none
  | fuel + 1, ts =>
      match ts with
      | Except.ok t :: rest =>
          if [TokenKind.not].contains t.kind then
            match parse_bool_factor fuel rest with
            | Option.none => Option.none
            | some (Except.error e) => some (Except.error e)
            | some (Except.ok (value, ts1)) =>
                some (Except.ok (Node.unaryOp t value, ts1))
          else parse_comparison fuel ts
      | _ => parse_comparison fuel ts

/-- Parser::parse_bool_term: `and` over `parse_bool_factor`. -/
def parse_bool_term : Nat → TokStream →
    Option (Except ParseErr (Node × TokStream))
  | 0, _ => Option.none
  | fuel + 1, ts =>
      match parse_bool_factor fuel ts with
      | Option.none => Option.none
      | some (Except.error e) => some (Except.error e)
      | some (Except.ok (root, ts1)) => bool_term_loop fuel root ts1

/-- The operator loop of `parse_bool_term`. -/
def bool_term_loop : Nat → Node → TokStream →
    Option (Except ParseErr (Node × TokStream))
  | 0, _, _ => Option.none
  | fuel + 1, root, ts =>
      match ts with
      | Except.ok t :: rest =>
          if [TokenKind.and].contains t.kind then
            match parse_bool_factor fuel rest with
            | Option.none => Option.none
            | some (Except.error e) => some (Except.error e)
            | some (Except.ok (right, ts1)) =>
                bool_term_loop fuel (Node.binaryOp root t right) ts1
          else some (Except.ok (root, ts))
      | _ => some (Except.ok (root, ts))

/-- Parser::parse_bool_expr, the parser's expression entry point: `or` over
`parse_bool_term`. -/
def parse_bool_expr : Nat → TokStream →
    Option (Except ParseErr (Node × TokStream))
  | 0, _ => Option.none
  | fuel + 1, ts =>
      match parse_bool_term fuel ts with
      | Option.none => Option.none
      | some (Except.error e) => some (Except.error e)
      | some (Except.ok (root, ts1)) => bool_expr_loop fuel root ts1

/-- The operator loop of `parse_bool_expr`. -/
def bool_expr_loop : Nat → Node → TokStream →
    Option (Except ParseErr (Node × TokStream))
  | 0, _, _ => Option.none
  | fuel + 1, root, ts =>
      match ts with
      | Except.ok t :: rest =>
          if [TokenKind.or].contains t.kind then
            match parse_bool_term fuel rest with
            | Option.none => Option.none
            | some (Except.error e) => some (Except.error e)
            | some (Except.ok (right, ts1)) =>
                bool_expr_loop fuel (Node.binaryOp root t right) ts1
          else some (Except.ok (root, ts))
      | _ => some (Except.ok (root, ts))

end

/-- A single-character token at position `(1, 1)`, for concrete statements
(positions are irrelevant to the evaluator's value behaviour). -/
def sample_token (kind : TokenKind) : Token := ⟨⟨1, 1⟩, Option.none, kind⟩

/-- A concrete identifier token. -/
def ident_token (name : String) : Token :=
  sample_token (TokenKind.identifier name)

/-- A concrete integer-literal atom. -/
def int_atom (n : Int) : Node := Node.atom (sample_token (TokenKind.integer n))

/-- Shape test used by the amended claim C9: is the value an Integer. -/
def Value.is_integer : Value → Bool
  | Value.integer _ => true
  | _ => false

/-- The mono program `let x = 1` / `let f(x) => { }` / `f(99)` / `x`,
as an AST: an outer `x`, a function whose parameter is named `x`, a call,
and a final read of `x` (claim C1's scenario). -/
def shadow_program : Node := Node.program [
  Node.assignment (ident_token ("x")) (int_atom 1) true,
  Node.funcDeclearion (ident_token ("f")) [ident_token ("x")] (Node.program []),
  Node.funcCall (ident_token ("f")) [int_atom 99],
  Node.access (ident_token ("x"))]

/-- The mono program `let f(x) => { }` / `f(5)` / `x`: no outer `x` is ever
declared, so after the call's scope is popped the claim C8 predicts that
reading `x` fails (claim C1 likewise predicts the parameter binding cannot
survive the call). -/
def leak_program : Node := Node.program [
  Node.funcDeclearion (ident_token ("f")) [ident_token ("x")] (Node.program []),
  Node.funcCall (ident_token ("f")) [int_atom 5],
  Node.access (ident_token ("x"))]

/-- The symbol table in which `leak_program`'s evaluation ends. -/
def leak_final_table : SymbolTable :=
  ((evaluate 20 leak_program initial_table).getD
    (RunRes.panicked, SymbolTable.new)).2

/-- The first `^` token of `2 ^ 3 ^ 2`. -/
def pow_tok_1 : Token := ⟨⟨1, 3⟩, Option.none, TokenKind.pow⟩

/-- The second `^` token of `2 ^ 3 ^ 2`. -/
def pow_tok_2 : Token := ⟨⟨1, 7⟩, Option.none, TokenKind.pow⟩

/-- The right-associative tree `2 ^ (3 ^ 2)` with the tokens of the source
text `2 ^ 3 ^ 2`. -/
def pow_tree : Node :=
  Node.binaryOp (Node.atom ⟨⟨1, 1⟩, Option.none, TokenKind.integer 2⟩)
    pow_tok_1
    (Node.binaryOp (Node.atom ⟨⟨1, 5⟩, Option.none, TokenKind.integer 3⟩)
      pow_tok_2
      (Node.atom ⟨⟨1, 9⟩, Option.none, TokenKind.integer 2⟩))

/-- The left-associative grouping `(2 ^ 3) ^ 2` of the same tokens, which
the parser does not produce. -/
def pow_tree_left : Node :=
  Node.binaryOp
    (Node.binaryOp (Node.atom ⟨⟨1, 1⟩, Option.none, TokenKind.integer 2⟩)
      pow_tok_1 (Node.atom ⟨⟨1, 5⟩, Option.none, TokenKind.integer 3⟩))
    pow_tok_2
    (Node.atom ⟨⟨1, 9⟩, Option.none, TokenKind.integer 2⟩)


theorem insert_length {st st' : SymbolTable} {k : String} {v : Value}
    (h : st.insert k v = some st') : st'.tables.length = st.tables.length := by
  unfold SymbolTable.insert at h
  split at h
  · exact absurd h (by simp)
  · cases h; simp_all

theorem tables_update_length : ∀ {ts ts' : List Scope} {k : String} {v : Value},
    tables_update ts k v = some ts' → ts'.length = ts.length := by
  intro ts
  induction ts with
  | nil => intro ts' k v h; exact absurd h (by simp [tables_update])
  | cons t rest ih =>
      intro ts' k v h
      unfold tables_update at h
      split at h
      · cases h; simp
      · split at h
        · rename_i rest2 heq
          cases h; simpa using ih heq
        · exact absurd h (by simp)

theorem get_mut_set_length {st st' : SymbolTable} {k : String} {v : Value}
    (h : st.get_mut_set k v = some st') :
    st'.tables.length = st.tables.length := by
  unfold SymbolTable.get_mut_set at h
  split at h
  · rename_i ts2 heq
    cases h; simpa using tables_update_length heq
  · exact absurd h (by simp)

theorem scope_length (st : SymbolTable) :
    (st.scope).tables.length = st.tables.length + 1 := by
  simp [SymbolTable.scope]

theorem unscope_length {st st' : SymbolTable}
    (h : st.unscope = some st') : st.tables.length = st'.tables.length + 1 := by
  unfold SymbolTable.unscope at h
  split at h
  · exact absurd h (by simp)
  · cases h; simp_all [List.length_dropLast]; omega

theorem insert_all_length : ∀ {l : List (String × Value)} {st st' : SymbolTable},
    insert_all st l = some st' → st'.tables.length = st.tables.length := by
  intro l
  induction l with
  | nil => intro st st' h; cases h; rfl
  | cons p rest ih =>
      intro st st' h
      unfold insert_all at h
      split at h
      · exact (ih h).trans (insert_length (by assumption))
      · exact absurd h (by simp)

end Mono

namespace Mono

theorem depth_invariant : ∀ fuel : Nat,
    (∀ n st r st', evaluate fuel n st = some (r, st') →
      r.isCompletion = true → st'.tables.length = st.tables.length) ∧
    (∀ ns st vs st', eval_values fuel ns st = some (ValuesRes.ok vs st') →
      st'.tables.length = st.tables.length) ∧
    (∀ ns st r st', eval_values fuel ns st = some (ValuesRes.stop r st') →
      r.isCompletion = true → st'.tables.length = st.tables.length) ∧
    (∀ ss st r st', eval_stmts fuel ss st = some (r, st') →
      r.isCompletion = true → st'.tables.length = st.tables.length) ∧
    (∀ c b st r st', eval_while fuel c b st = some (r, st') →
      r.isCompletion = true → st'.tables.length = st.tables.length) := by
  intro fuel
  induction fuel with
  | zero =>
      refine ⟨?_, ?_, ?_, ?_, ?_⟩
      · intro n st r st' h _; exact absurd h (by simp [evaluate])
      · intro ns st vs st' h
        cases ns with
        | nil =>
            simp only [eval_values, Option.some.injEq, ValuesRes.ok.injEq] at h
            rw [h.2]
        | cons hd tl => simp [eval_values, evaluate] at h
      · intro ns st r st' h _
        cases ns with
        | nil => simp [eval_values] at h
        | cons hd tl => simp [eval_values, evaluate] at h
      · intro ss st r st' h hc
        cases ss with
        | nil =>
            simp only [eval_stmts, Option.some.injEq, Prod.mk.injEq] at h
            rw [h.2]
        | cons hd tl => simp [eval_stmts, evaluate] at h
      · intro c b st r st' h _; exact absurd h (by simp [eval_while])
  | succ fuel ih =>
      obtain ⟨ihE, ihVok, ihVstop, ihS, ihW⟩ := ih
      have hE : ∀ n st r st', evaluate (fuel + 1) n st = some (r, st') →
          r.isCompletion = true → st'.tables.length = st.tables.length := by
        intro n st r st' hev hcomp
        cases n with
        | atom t =>
            rw [evaluate.eq_def] at hev; simp only at hev
            split at hev
            · simp only [Option.some.injEq, Prod.mk.injEq] at hev
              obtain ⟨rfl, rfl⟩ := hev; rfl
            · simp only [Option.some.injEq, Prod.mk.injEq] at hev
              obtain ⟨rfl, rfl⟩ := hev
              simp [RunRes.isCompletion] at hcomp
        | list values =>
            rw [evaluate.eq_def] at hev; simp only at hev
            split at hev
            · exact absurd hev (by simp)
            · rename_i vs st1 heq
              simp only [Option.some.injEq, Prod.mk.injEq] at hev
              obtain ⟨rfl, rfl⟩ := hev
              exact ihVok _ _ _ _ heq
            · rename_i r1 st1 heq
              simp only [Option.some.injEq, Prod.mk.injEq] at hev
              obtain ⟨rfl, rfl⟩ := hev
              exact ihVstop _ _ _ _ heq hcomp
        | binaryOp l op rn =>
            rw [evaluate.eq_def] at hev; simp only at hev
            split at hev
            · exact absurd hev (by simp)
            · rename_i rv st1 heqR
              split at hev
              · exact absurd hev (by simp)
              · rename_i lv st2 heqL
                simp only [Option.some.injEq, Prod.mk.injEq] at hev
                obtain ⟨rfl, rfl⟩ := hev
                exact (ihE _ _ _ _ heqL rfl).trans (ihE _ _ _ _ heqR rfl)
              · rename_i r2 st2 heqL
                simp only [Option.some.injEq, Prod.mk.injEq] at hev
                obtain ⟨rfl, rfl⟩ := hev
                exact (ihE _ _ _ _ heqL hcomp).trans (ihE _ _ _ _ heqR rfl)
            · rename_i r1 st1 heqR
              simp only [Option.some.injEq, Prod.mk.injEq] at hev
              obtain ⟨rfl, rfl⟩ := hev
              exact ihE _ _ _ _ heqR hcomp
        | unaryOp op vn =>
            rw [evaluate.eq_def] at hev; simp only at hev
            split at hev
            · exact absurd hev (by simp)
            · rename_i v st1 heq
              simp only [Option.some.injEq, Prod.mk.injEq] at hev
              obtain ⟨rfl, rfl⟩ := hev
              exact ihE _ _ _ _ heq rfl
            · rename_i r1 st1 heq
              simp only [Option.some.injEq, Prod.mk.injEq] at hev
              obtain ⟨rfl, rfl⟩ := hev
              exact ihE _ _ _ _ heq hcomp
        | assignment idtok vn isDecl =>
            rw [evaluate.eq_def] at hev; simp only at hev
            split at hev
            · exact absurd hev (by simp)
            · rename_i v st1 heq
              split at hev
              · rename_i name hkind
                split at hev
                · split at hev
                  · rename_i st2 hins
                    simp only [Option.some.injEq, Prod.mk.injEq] at hev
                    obtain ⟨rfl, rfl⟩ := hev
                    exact (insert_length hins).trans (ihE _ _ _ _ heq rfl)
                  · simp only [Option.some.injEq, Prod.mk.injEq] at hev
                    obtain ⟨rfl, rfl⟩ := hev
                    simp [RunRes.isCompletion] at hcomp
                · split at hev
                  · rename_i st2 hins
                    simp only [Option.some.injEq, Prod.mk.injEq] at hev
                    obtain ⟨rfl, rfl⟩ := hev
                    exact (get_mut_set_length hins).trans (ihE _ _ _ _ heq rfl)
                  · simp only [Option.some.injEq, Prod.mk.injEq] at hev
                    obtain ⟨rfl, rfl⟩ := hev
                    exact ihE _ _ _ _ heq rfl
              · simp only [Option.some.injEq, Prod.mk.injEq] at hev
                obtain ⟨rfl, rfl⟩ := hev
                simp [RunRes.isCompletion] at hcomp
            · rename_i r1 st1 heq
              simp only [Option.some.injEq, Prod.mk.injEq] at hev
              obtain ⟨rfl, rfl⟩ := hev
              exact ihE _ _ _ _ heq hcomp
        | listAssignment idtok ixn vn =>
            rw [evaluate.eq_def] at hev; simp only at hev
            split at hev
            · exact absurd hev (by simp)
            · rename_i v st1 heq1
              split at hev
              · exact absurd hev (by simp)
              · rename_i iv st2 heq2
                split at hev
                · rename_i name hkind
                  split at hev
                  · rename_i lst hget
                    simp only [Option.some.injEq, Prod.mk.injEq] at hev
                    obtain ⟨rfl, rfl⟩ := hev
                    exact (ihE _ _ _ _ heq2 rfl).trans (ihE _ _ _ _ heq1 rfl)
                  · simp only [Option.some.injEq, Prod.mk.injEq] at hev
                    obtain ⟨rfl, rfl⟩ := hev
                    exact (ihE _ _ _ _ heq2 rfl).trans (ihE _ _ _ _ heq1 rfl)
                · simp only [Option.some.injEq, Prod.mk.injEq] at hev
                  obtain ⟨rfl, rfl⟩ := hev
                  simp [RunRes.isCompletion] at hcomp
              · rename_i r2 st2 heq2
                simp only [Option.some.injEq, Prod.mk.injEq] at hev
                obtain ⟨rfl, rfl⟩ := hev
                exact (ihE _ _ _ _ heq2 hcomp).trans (ihE _ _ _ _ heq1 rfl)
            · rename_i r1 st1 heq1
              simp only [Option.some.injEq, Prod.mk.injEq] at hev
              obtain ⟨rfl, rfl⟩ := hev
              exact ihE _ _ _ _ heq1 hcomp
        | access idtok =>
            rw [evaluate.eq_def] at hev; simp only at hev
            split at hev
            · rename_i name hkind
              split at hev
              · simp only [Option.some.injEq, Prod.mk.injEq] at hev
                obtain ⟨rfl, rfl⟩ := hev; rfl
              · simp only [Option.some.injEq, Prod.mk.injEq] at hev
                obtain ⟨rfl, rfl⟩ := hev; rfl
            · simp only [Option.some.injEq, Prod.mk.injEq] at hev
              obtain ⟨rfl, rfl⟩ := hev
              simp [RunRes.isCompletion] at hcomp
        | indexNode idtok ixn =>
            rw [evaluate.eq_def] at hev; simp only at hev
            split at hev
            · exact absurd hev (by simp)
            · rename_i iv st1 heq
              split at hev
              · rename_i name hkind
                split at hev
                · simp only [Option.some.injEq, Prod.mk.injEq] at hev
                  obtain ⟨rfl, rfl⟩ := hev
                  exact ihE _ _ _ _ heq rfl
                · simp only [Option.some.injEq, Prod.mk.injEq] at hev
                  obtain ⟨rfl, rfl⟩ := hev
                  exact ihE _ _ _ _ heq rfl
              · simp only [Option.some.injEq, Prod.mk.injEq] at hev
                obtain ⟨rfl, rfl⟩ := hev
                simp [RunRes.isCompletion] at hcomp
            · rename_i r1 st1 heq
              simp only [Option.some.injEq, Prod.mk.injEq] at hev
              obtain ⟨rfl, rfl⟩ := hev
              exact ihE _ _ _ _ heq hcomp
        | program statements =>
            rw [evaluate.eq_def] at hev; simp only at hev
            exact ihS _ _ _ _ hev hcomp
        | ifStmt cond blk elseBlk =>
            rw [evaluate.eq_def] at hev; simp only at hev
            split at hev
            · exact absurd hev (by simp)
            · rename_i st1 heq
              exact (ihE _ _ _ _ hev hcomp).trans (ihE _ _ _ _ heq rfl)
            · rename_i st1 heq
              split at hev
              · rename_i eb
                exact (ihE _ _ _ _ hev hcomp).trans (ihE _ _ _ _ heq rfl)
              · simp only [Option.some.injEq, Prod.mk.injEq] at hev
                obtain ⟨rfl, rfl⟩ := hev
                exact ihE _ _ _ _ heq rfl
            · rename_i other st1 heq
              simp only [Option.some.injEq, Prod.mk.injEq] at hev
              obtain ⟨rfl, rfl⟩ := hev
              exact ihE _ _ _ _ heq rfl
            · rename_i r1 st1 heq
              simp only [Option.some.injEq, Prod.mk.injEq] at hev
              obtain ⟨rfl, rfl⟩ := hev
              exact ihE _ _ _ _ heq hcomp
        | whileStmt cond blk =>
            rw [evaluate.eq_def] at hev; simp only at hev
            exact ihW _ _ _ _ _ hev hcomp
        | funcDeclearion idtok argToks body =>
            rw [evaluate.eq_def] at hev; simp only at hev
            split at hev
            · rename_i nm hkind
              split at hev
              · rename_i names hnames
                split at hev
                · rename_i st1 hins
                  simp only [Option.some.injEq, Prod.mk.injEq] at hev
                  obtain ⟨rfl, rfl⟩ := hev
                  exact insert_length hins
                · simp only [Option.some.injEq, Prod.mk.injEq] at hev
                  obtain ⟨rfl, rfl⟩ := hev
                  simp [RunRes.isCompletion] at hcomp
              · simp only [Option.some.injEq, Prod.mk.injEq] at hev
                obtain ⟨rfl, rfl⟩ := hev
                simp [RunRes.isCompletion] at hcomp
            · simp only [Option.some.injEq, Prod.mk.injEq] at hev
              obtain ⟨rfl, rfl⟩ := hev
              simp [RunRes.isCompletion] at hcomp
        | funcCall idtok params =>
            rw [evaluate.eq_def] at hev; simp only at hev
            split at hev
            · exact absurd hev (by simp)
            · rename_i r1 st1 heqV
              simp only [Option.some.injEq, Prod.mk.injEq] at hev
              obtain ⟨rfl, rfl⟩ := hev
              exact ihVstop _ _ _ _ heqV hcomp
            · rename_i values st1 heqV
              split at hev
              · rename_i name hkind
                split at hev
                · rename_i fname fargs fbody hget
                  split at hev
                  · simp only [Option.some.injEq, Prod.mk.injEq] at hev
                    obtain ⟨rfl, rfl⟩ := hev
                    exact ihVok _ _ _ _ heqV
                  · split at hev
                    · simp only [Option.some.injEq, Prod.mk.injEq] at hev
                      obtain ⟨rfl, rfl⟩ := hev
                      simp [RunRes.isCompletion] at hcomp
                    · rename_i st2 hins
                      split at hev
                      · exact absurd hev (by simp)
                      · rename_i v st3 heqB
                        split at hev
                        · rename_i st4 huns
                          simp only [Option.some.injEq, Prod.mk.injEq] at hev
                          obtain ⟨rfl, rfl⟩ := hev
                          have h1 := unscope_length huns
                          have h2 := ihE _ _ _ _ heqB rfl
                          have h3 := insert_all_length hins
                          have h4 := scope_length st1
                          have h5 := ihVok _ _ _ _ heqV
                          omega
                        · simp only [Option.some.injEq, Prod.mk.injEq] at hev
                          obtain ⟨rfl, rfl⟩ := hev
                          simp [RunRes.isCompletion] at hcomp
                      · rename_i e st3 heqB
                        split at hev
                        · rename_i st4 huns
                          simp only [Option.some.injEq, Prod.mk.injEq] at hev
                          obtain ⟨rfl, rfl⟩ := hev
                          have h1 := unscope_length huns
                          have h2 := ihE _ _ _ _ heqB rfl
                          have h3 := insert_all_length hins
                          have h4 := scope_length st1
                          have h5 := ihVok _ _ _ _ heqV
                          omega
                        · simp only [Option.some.injEq, Prod.mk.injEq] at hev
                          obtain ⟨rfl, rfl⟩ := hev
                          simp [RunRes.isCompletion] at hcomp
                      · rename_i hnoval hnoerr heqB
                        rename_i rr stt
                        simp only [Option.some.injEq, Prod.mk.injEq] at hev
                        obtain ⟨rfl, rfl⟩ := hev
                        cases rr with
                        | val v => exact absurd rfl (hnoval v)
                        | err e => exact absurd rfl (hnoerr e)
                        | panicked => simp [RunRes.isCompletion] at hcomp
                        | exited c => simp [RunRes.isCompletion] at hcomp
                · rename_i bname bargs tag hget
                  split at hev
                  · simp only [Option.some.injEq, Prod.mk.injEq] at hev
                    obtain ⟨rfl, rfl⟩ := hev
                    exact ihVok _ _ _ _ heqV
                  · split at hev
                    · simp only [Option.some.injEq, Prod.mk.injEq] at hev
                      obtain ⟨rfl, rfl⟩ := hev
                      exact ihVok _ _ _ _ heqV
                    · simp only [Option.some.injEq, Prod.mk.injEq] at hev
                      obtain ⟨rfl, rfl⟩ := hev
                      simp [RunRes.isCompletion] at hcomp
                    · simp only [Option.some.injEq, Prod.mk.injEq] at hev
                      obtain ⟨rfl, rfl⟩ := hev
                      simp [RunRes.isCompletion] at hcomp
                · simp only [Option.some.injEq, Prod.mk.injEq] at hev
                  obtain ⟨rfl, rfl⟩ := hev
                  exact ihVok _ _ _ _ heqV
              · simp only [Option.some.injEq, Prod.mk.injEq] at hev
                obtain ⟨rfl, rfl⟩ := hev
                simp [RunRes.isCompletion] at hcomp
        | returnStmt vn =>
            rw [evaluate.eq_def] at hev; simp only at hev
            exact ihE _ _ _ _ hev hcomp
      have hS : ∀ ss st r st', eval_stmts (fuel + 1) ss st = some (r, st') →
          r.isCompletion = true → st'.tables.length = st.tables.length := by
        intro ss
        induction ss with
        | nil =>
            intro st r st' hev _
            simp only [eval_stmts, Option.some.injEq, Prod.mk.injEq] at hev
            rw [hev.2]
        | cons s rest ihrest =>
            intro st r st' hev hcomp
            rw [eval_stmts.eq_def] at hev; simp only at hev
            split at hev
            · exact absurd hev (by simp)
            · rename_i v st1 heq
              split at hev
              · exact (ihrest _ _ _ hev hcomp).trans (hE _ _ _ _ heq rfl)
              · simp only [Option.some.injEq, Prod.mk.injEq] at hev
                obtain ⟨rfl, rfl⟩ := hev
                exact hE _ _ _ _ heq rfl
            · rename_i r1 st1 heq
              simp only [Option.some.injEq, Prod.mk.injEq] at hev
              obtain ⟨rfl, rfl⟩ := hev
              exact hE _ _ _ _ heq hcomp
      have hVok : ∀ ns st vs st', eval_values (fuel + 1) ns st =
          some (ValuesRes.ok vs st') → st'.tables.length = st.tables.length := by
        intro ns
        induction ns with
        | nil =>
            intro st vs st' hev
            simp only [eval_values, Option.some.injEq, ValuesRes.ok.injEq] at hev
            rw [hev.2]
        | cons n rest ihrest =>
            intro st vs st' hev
            rw [eval_values.eq_def] at hev; simp only at hev
            split at hev
            · exact absurd hev (by simp)
            · rename_i v st1 heq
              split at hev
              · exact absurd hev (by simp)
              · rename_i vs2 st2 heq2
                simp only [Option.some.injEq, ValuesRes.ok.injEq] at hev
                obtain ⟨rfl, rfl⟩ := hev
                exact (ihrest _ _ _ heq2).trans (hE _ _ _ _ heq rfl)
              · simp at hev
            · rename_i r1 st1 heq
              simp at hev
      have hVstop : ∀ ns st r st', eval_values (fuel + 1) ns st =
          some (ValuesRes.stop r st') → r.isCompletion = true →
          st'.tables.length = st.tables.length := by
        intro ns
        induction ns with
        | nil =>
            intro st r st' hev _
            simp [eval_values] at hev
        | cons n rest ihrest =>
            intro st r st' hev hcomp
            rw [eval_values.eq_def] at hev; simp only at hev
            split at hev
            · exact absurd hev (by simp)
            · rename_i v st1 heq
              split at hev
              · exact absurd hev (by simp)
              · simp at hev
              · rename_i r2 st2 heq2
                simp only [Option.some.injEq, ValuesRes.stop.injEq] at hev
                obtain ⟨rfl, rfl⟩ := hev
                exact (ihrest _ _ _ heq2 hcomp).trans (hE _ _ _ _ heq rfl)
            · rename_i r1 st1 heq
              simp only [Option.some.injEq, ValuesRes.stop.injEq] at hev
              obtain ⟨rfl, rfl⟩ := hev
              exact hE _ _ _ _ heq hcomp
      have hW : ∀ c b st r st', eval_while (fuel + 1) c b st = some (r, st') →
          r.isCompletion = true → st'.tables.length = st.tables.length := by
        intro c b st r st' hev hcomp
        rw [eval_while.eq_def] at hev; simp only at hev
        split at hev
        · exact absurd hev (by simp)
        · rename_i st1 heqC
          split at hev
          · exact absurd hev (by simp)
          · rename_i v st2 heqB
            split at hev
            · exact (ihW _ _ _ _ _ hev hcomp).trans
                ((ihE _ _ _ _ heqB rfl).trans (ihE _ _ _ _ heqC rfl))
            · simp only [Option.some.injEq, Prod.mk.injEq] at hev
              obtain ⟨rfl, rfl⟩ := hev
              exact (ihE _ _ _ _ heqB rfl).trans (ihE _ _ _ _ heqC rfl)
          · rename_i r2 st2 heqB
            simp only [Option.some.injEq, Prod.mk.injEq] at hev
            obtain ⟨rfl, rfl⟩ := hev
            exact (ihE _ _ _ _ heqB hcomp).trans (ihE _ _ _ _ heqC rfl)
        · rename_i v1 st1 heqC
          simp only [Option.some.injEq, Prod.mk.injEq] at hev
          obtain ⟨rfl, rfl⟩ := hev
          exact ihE _ _ _ _ heqC rfl
        · rename_i r1 st1 heqC
          simp only [Option.some.injEq, Prod.mk.injEq] at hev
          obtain ⟨rfl, rfl⟩ := hev
          exact ihE _ _ _ _ heqC hcomp
      exact ⟨hE, hVok, hVstop, hS, hW⟩

theorem eval_stmts_append : ∀ (fuel : Nat) (xs ys : List Node) (st st₁ : SymbolTable),
    eval_stmts fuel xs st = some (RunRes.val Value.none, st₁) →
    eval_stmts fuel (xs ++ ys) st = eval_stmts fuel ys st₁ := by
  intro fuel xs
  induction xs with
  | nil =>
      intro ys st st₁ h
      simp only [eval_stmts, Option.some.injEq, Prod.mk.injEq] at h
      rw [List.nil_append, h.2]
  | cons s rest ih =>
      intro ys st st₁ h
      rw [eval_stmts.eq_def] at h
      simp only at h
      rw [List.cons_append, eval_stmts.eq_def]
      simp only
      split at h
      · exact absurd h (by simp)
      · rename_i v st2 heq
        split at h
        · rename_i hni
          rw [if_pos hni]
          exact ih ys st2 st₁ h
        · rename_i hni
          simp only [Option.some.injEq, Prod.mk.injEq, RunRes.val.injEq] at h
          obtain ⟨rfl, rfl⟩ := h
          exact absurd rfl hni
      · rename_i rr stt hno heq
        simp only [Option.some.injEq, Prod.mk.injEq] at h
        exact (hno Value.none h.1).elim

/-- C1: the symbol table's lookups do NOT search innermost-to-outermost and
declarations do NOT write to the innermost scope: `get` scans `tables` from
index 0 (the outermost, global scope, since `scope()` pushes at the end)
and `insert` writes to `tables.first_mut()`. Consequently, calling a
function whose parameter is named `x` overwrites an outer `x` in the global
table, and after the call returns the outer `x` holds the argument value
(99), not its pre-call value (1). The first two conjuncts exhibit the
direction of `get` and `insert` on explicit two-scope tables; the last two
run `shadow_program` (`let x = 1; let f(x) => {}; f(99); x`). -/
theorem c1_scoping_code_behavior :
    SymbolTable.get ⟨[[("x", Value.integer 1)], [("x", Value.integer 2)]]⟩ ("x") =
      some (Value.integer 1) ∧
    SymbolTable.insert ⟨[[], []]⟩ ("y") (Value.integer 7) =
      some ⟨[[("y", Value.integer 7)], []]⟩ ∧
    (evaluate 20 shadow_program initial_table).map Prod.fst =
      some (RunRes.val (Value.integer 99)) ∧
    (evaluate 20 shadow_program initial_table).map (fun p => p.2.get ("x")) =
      some (some (Value.integer 99)) :=
  ⟨rfl, rfl, by with_unfolding_all rfl, by with_unfolding_all rfl⟩

/-- C2: in a block (`eval_program`), statements run in order and the first
statement evaluating to a non-None value terminates the block early with
that value, whatever follows; a prefix that only produces None runs to
completion, threading its state; and a While body's first non-None value
stops the loop and becomes its result. -/
theorem c2_block_early_exit :
    (∀ (fuel : Nat) (pre rest : List Node) (s : Node) (st st₁ st₂ : SymbolTable)
        (v : Value),
      eval_stmts fuel pre st = some (RunRes.val Value.none, st₁) →
      evaluate fuel s st₁ = some (RunRes.val v, st₂) →
      v.isNone = false →
      eval_stmts fuel (pre ++ s :: rest) st = some (RunRes.val v, st₂)) ∧
    (∀ (fuel : Nat) (xs ys : List Node) (st st₁ : SymbolTable),
      eval_stmts fuel xs st = some (RunRes.val Value.none, st₁) →
      eval_stmts fuel (xs ++ ys) st = eval_stmts fuel ys st₁) ∧
    (∀ (fuel : Nat) (c b : Node) (st st₁ st₂ : SymbolTable) (v : Value),
      evaluate fuel c st = some (RunRes.val (Value.boolean true), st₁) →
      evaluate fuel b st₁ = some (RunRes.val v, st₂) →
      v.isNone = false →
      eval_while (fuel + 1) c b st = some (RunRes.val v, st₂)) := by
  refine ⟨?_, eval_stmts_append, ?_⟩
  · intro fuel pre rest s st st₁ st₂ v h1 h2 hni
    rw [eval_stmts_append fuel pre (s :: rest) st st₁ h1]
    rw [eval_stmts.eq_def]
    simp only [h2]
    rw [if_neg]
    simp [hni]
  · intro fuel c b st st₁ st₂ v hC hB hni
    rw [eval_while.eq_def]
    simp only [hC, hB]
    rw [if_neg]
    simp [hni]

/-- Witness for C2: a block whose second statement is the literal `7`
yields 7 without touching the rest, and a `while true { 3 }` loop stops at
its first non-None body value. -/
theorem c2_block_early_exit_witness :
    eval_stmts 5 ([] ++ int_atom 7 :: [int_atom 8]) initial_table =
      some (RunRes.val (Value.integer 7), initial_table) ∧
    eval_while 5 (Node.atom (sample_token (TokenKind.boolean true))) (int_atom 3)
        initial_table = some (RunRes.val (Value.integer 3), initial_table) :=
  ⟨c2_block_early_exit.1 5 [] [int_atom 8] (int_atom 7) initial_table
      initial_table initial_table (Value.integer 7)
      (by with_unfolding_all rfl) (by with_unfolding_all rfl) rfl,
   c2_block_early_exit.2.2 4 (Node.atom (sample_token (TokenKind.boolean true)))
      (int_atom 3) initial_table initial_table initial_table
      (Value.integer 3) (by with_unfolding_all rfl)
      (by with_unfolding_all rfl) rfl⟩

/-- C3 counterexample: the claim says `==` is defined on Boolean/Boolean
and that `None == None` evaluates to `Boolean(true)`; `Value::equals` has
match arms only for Integer/Integer and Float/Float, so both inputs fall
into the catch-all and return an InvalidOperation error. -/
theorem c3_equals_boolean_counterexample :
    Value.equals (Value.boolean true) (Value.boolean true)
        (sample_token TokenKind.equals) =
      OpOut.err (Runtime.invalidOperation (sample_token TokenKind.equals)
        (some (Value.boolean true)) (Value.boolean true)) ∧
    Value.equals Value.none Value.none (sample_token TokenKind.equals) =
      OpOut.err (Runtime.invalidOperation (sample_token TokenKind.equals)
        (some Value.none) Value.none) :=
  ⟨rfl, rfl⟩

/-- C3 amended: `==` succeeds exactly on Integer/Integer and Float/Float;
`!=` additionally on Boolean/Boolean, computed as XOR; every other
operand-type combination (including Boolean/Boolean for `==`, and any
String, Character or None operand) is an InvalidOperation error. -/
theorem c3_equality_operators_amended :
    (∀ (a b : Int) (t : Token),
      Value.equals (Value.integer a) (Value.integer b) t =
        OpOut.ok (Value.boolean (a == b))) ∧
    (∀ (x y : F32) (t : Token),
      Value.equals (Value.float x) (Value.float y) t =
        OpOut.ok (Value.boolean (f32_beq x y))) ∧
    (∀ (a b : Int) (t : Token),
      Value.not_equals (Value.integer a) (Value.integer b) t =
        OpOut.ok (Value.boolean (a != b))) ∧
    (∀ (x y : F32) (t : Token),
      Value.not_equals (Value.float x) (Value.float y) t =
        OpOut.ok (Value.boolean (f32_bne x y))) ∧
    (∀ (a b : Bool) (t : Token),
      Value.not_equals (Value.boolean a) (Value.boolean b) t =
        OpOut.ok (Value.boolean (Bool.xor a b))) ∧
    (∀ (v w : Value) (t : Token), equals_defined v w = false →
      Value.equals v w t = OpOut.err (Runtime.invalidOperation t (some v) w)) ∧
    (∀ (v w : Value) (t : Token), not_equals_defined v w = false →
      Value.not_equals v w t = OpOut.err (Runtime.invalidOperation t (some v) w)) := by
  refine ⟨fun _ _ _ => rfl, fun _ _ _ => rfl, fun _ _ _ => rfl, fun _ _ _ => rfl,
    fun _ _ _ => rfl, ?_, ?_⟩
  · intro v w t h
    cases v <;> cases w <;> first
      | rfl
      | simp [equals_defined] at h
  · intro v w t h
    cases v <;> cases w <;> first
      | rfl
      | simp [not_equals_defined] at h

/-- Witness for C3 (catch-all conjuncts): String/String equality and a
None-vs-Integer inequality are outside the defined shapes and error. -/
theorem c3_equality_operators_amended_witness :
    equals_defined (Value.string ("a")) (Value.string ("a")) = false ∧
    Value.equals (Value.string ("a")) (Value.string ("a"))
        (sample_token TokenKind.equals) =
      OpOut.err (Runtime.invalidOperation (sample_token TokenKind.equals)
        (some (Value.string ("a"))) (Value.string ("a"))) ∧
    not_equals_defined Value.none (Value.integer 0) = false ∧
    Value.not_equals Value.none (Value.integer 0)
        (sample_token TokenKind.notEquals) =
      OpOut.err (Runtime.invalidOperation (sample_token TokenKind.notEquals)
        (some Value.none) (Value.integer 0)) :=
  ⟨rfl,
   c3_equality_operators_amended.2.2.2.2.2.1 (Value.string ("a"))
     (Value.string ("a")) (sample_token TokenKind.equals) rfl,
   rfl,
   c3_equality_operators_amended.2.2.2.2.2.2 Value.none (Value.integer 0)
     (sample_token TokenKind.notEquals) rfl⟩

/-- C4 counterexample: the claim says `+` concatenates String+String and
mixed Character/String operands; `Value::add` has match arms only for
Integer/Integer and Float/Float, so both combinations fall into the
catch-all and return an InvalidOperation error. -/
theorem c4_add_string_counterexample :
    Value.add (Value.string ("a")) (Value.string ("b"))
        (sample_token TokenKind.add) =
      OpOut.err (Runtime.invalidOperation (sample_token TokenKind.add)
        (some (Value.string ("a"))) (Value.string ("b"))) ∧
    Value.add (Value.character 'a') (Value.string ("b"))
        (sample_token TokenKind.add) =
      OpOut.err (Runtime.invalidOperation (sample_token TokenKind.add)
        (some (Value.character 'a')) (Value.string ("b"))) :=
  ⟨rfl, rfl⟩

/-- C4 amended: `+` succeeds exactly on Integer+Integer (wrapping i32 sum)
and Float+Float (float sum); every other combination, including
String+String and Character/String, is an InvalidOperation error — and in
particular there is no implicit cast for Integer+Float. -/
theorem c4_add_amended :
    (∀ (a b : Int) (t : Token),
      Value.add (Value.integer a) (Value.integer b) t =
        OpOut.ok (Value.integer (i32_wrap (a + b)))) ∧
    (∀ (x y : F32) (t : Token),
      Value.add (Value.float x) (Value.float y) t =
        OpOut.ok (Value.float (f32_add x y))) ∧
    (∀ (v w : Value) (t : Token), add_defined v w = false →
      Value.add v w t = OpOut.err (Runtime.invalidOperation t (some v) w)) := by
  refine ⟨fun _ _ _ => rfl, fun _ _ _ => rfl, ?_⟩
  intro v w t h
  cases v <;> cases w <;> first
    | rfl
    | simp [add_defined] at h

/-- Witness for C4 (catch-all conjunct): Integer+Float is undefined and
errors instead of casting. -/
theorem c4_add_amended_witness :
    add_defined (Value.integer 1) (Value.float (F32.fin 2)) = false ∧
    Value.add (Value.integer 1) (Value.float (F32.fin 2))
        (sample_token TokenKind.add) =
      OpOut.err (Runtime.invalidOperation (sample_token TokenKind.add)
        (some (Value.integer 1)) (Value.float (F32.fin 2))) :=
  ⟨rfl,
   c4_add_amended.2.2 (Value.integer 1) (Value.float (F32.fin 2))
     (sample_token TokenKind.add) rfl⟩

/-- C5: what lexing `"x y z\ntrue false none\nnot and or"` actually
produces. Every position and span matches the claim (and the repository's
own `tests/test_tokenizer.rs` expectation), and `not`/`and`/`or` come out
as their keyword kinds — but `true`, `false` and `none` lex as
`Identifier` tokens, not `Boolean(true)`/`Boolean(false)`/`None`, because
`TokenKind::from_str` matches only the capitalized spellings
`True`/`False`/`None`. -/
theorem c5_lexing_code_behavior :
    tokenize "x y z\ntrue false none\nnot and or" =
      [Except.ok ⟨⟨1, 1⟩, Option.none, TokenKind.identifier ("x")⟩,
       Except.ok ⟨⟨1, 3⟩, Option.none, TokenKind.identifier ("y")⟩,
       Except.ok ⟨⟨1, 5⟩, Option.none, TokenKind.identifier ("z")⟩,
       Except.ok ⟨⟨1, 6⟩, Option.none, TokenKind.newLine⟩,
       Except.ok ⟨⟨2, 1⟩, some ⟨2, 4⟩, TokenKind.identifier ("true")⟩,
       Except.ok ⟨⟨2, 6⟩, some ⟨2, 10⟩, TokenKind.identifier ("false")⟩,
       Except.ok ⟨⟨2, 12⟩, some ⟨2, 15⟩, TokenKind.identifier ("none")⟩,
       Except.ok ⟨⟨2, 16⟩, Option.none, TokenKind.newLine⟩,
       Except.ok ⟨⟨3, 1⟩, some ⟨3, 3⟩, TokenKind.not⟩,
       Except.ok ⟨⟨3, 5⟩, some ⟨3, 7⟩, TokenKind.and⟩,
       Except.ok ⟨⟨3, 9⟩, some ⟨3, 10⟩, TokenKind.or⟩] := by
  rfl

/-- C6: lexing and parsing `2 ^ 3 ^ 2` through the expression grammar
(`parse_bool_expr`, the parser's expression entry point) yields the
right-associative tree `2 ^ (3 ^ 2)` — because `parse_power`'s right
operand recurses through `parse_factor` — consuming the whole stream, and
evaluating that tree yields `Integer 512`; the left-associative grouping
would instead yield `Integer 64`, which is also shown. -/
theorem c6_power_right_associative :
    parse_bool_expr 100 (tokenize "2 ^ 3 ^ 2") = some (Except.ok (pow_tree, [])) ∧
    evaluate 10 pow_tree initial_table =
      some (RunRes.val (Value.integer 512), initial_table) ∧
    evaluate 10 pow_tree_left initial_table =
      some (RunRes.val (Value.integer 64), initial_table) :=
  ⟨by with_unfolding_all rfl, by with_unfolding_all rfl,
   by with_unfolding_all rfl⟩

/-- C7: what `/` and `%` actually do on zero divisors. `Value::div` guards
both the Integer divisor 0 and the Float divisor 0.0 and returns
`DivisionByZero` carrying the operator token (shown generally and at the
claim's `5 / 0`); `Value::modulo` has NO such guard: an Integer divisor 0
reaches Rust's `%` and panics (shown generally and at `5 % 0`), and a
Float divisor 0.0 returns `Ok(Float(NaN))` rather than an error. -/
theorem c7_division_modulo_code_behavior :
    (∀ (a : Int) (t : Token),
      Value.div (Value.integer a) (Value.integer 0) t =
        OpOut.err (Runtime.divisionByZero t)) ∧
    (∀ (x : F32) (t : Token),
      Value.div (Value.float x) (Value.float (F32.fin 0)) t =
        OpOut.err (Runtime.divisionByZero t)) ∧
    Value.div (Value.integer 5) (Value.integer 0) (sample_token TokenKind.div) =
      OpOut.err (Runtime.divisionByZero (sample_token TokenKind.div)) ∧
    (∀ (a : Int) (t : Token),
      Value.modulo (Value.integer a) (Value.integer 0) t = OpOut.panicked) ∧
    Value.modulo (Value.integer 5) (Value.integer 0) (sample_token TokenKind.mod) =
      OpOut.panicked ∧
    (∀ (t : Token),
      Value.modulo (Value.float (F32.fin 5)) (Value.float (F32.fin 0)) t =
        OpOut.ok (Value.float F32.nan)) :=
  ⟨fun _ _ => rfl, fun _ _ => rfl, rfl, fun _ _ => rfl, rfl, fun _ => rfl⟩

/-- C8 counterexample: the claim says a call pushes a scope containing only
the parameter bindings and pops it when the call finishes; then after
`let f(x) => {}; f(5)` the name `x` would be unbound and the final `x`
statement of `leak_program` would fail with UnknownIdentifier. Instead the
program evaluates to `Integer 5` and `x` is still bound afterwards: the
parameter was inserted into the outermost table (`insert` targets
`tables.first_mut()`), not the pushed scope, which stays empty. -/
theorem c8_scope_content_counterexample :
    (evaluate 20 leak_program initial_table).map Prod.fst =
      some (RunRes.val (Value.integer 5)) ∧
    (evaluate 20 leak_program initial_table).map (fun p => p.2.get ("x")) =
      some (some (Value.integer 5)) :=
  ⟨by with_unfolding_all rfl, by with_unfolding_all rfl⟩

/-- C8 amended: every call pushes exactly one scope and pops it when the
body evaluation completes (with a value or an error alike), so whenever an
evaluation completes — without a panic or a process exit — the symbol
table's scope-stack depth is restored to its pre-evaluation value; the
parameter bindings, however, go to the outermost table, not the pushed
scope (see the counterexample). Stated for every node, which covers every
function call in particular. -/
theorem c8_push_pop_depth_amended :
    ∀ (fuel : Nat) (n : Node) (st : SymbolTable) (r : RunRes) (st' : SymbolTable),
      evaluate fuel n st = some (r, st') → r.isCompletion = true →
      st'.tables.length = st.tables.length :=
  fun fuel => (depth_invariant fuel).1

/-- Witness for C8: the call in `leak_program` completes with value 5 and
the scope-stack depth is back to the initial table's depth. -/
theorem c8_push_pop_depth_amended_witness :
    evaluate 20 leak_program initial_table =
      some (RunRes.val (Value.integer 5), leak_final_table) ∧
    (RunRes.val (Value.integer 5)).isCompletion = true ∧
    leak_final_table.tables.length = initial_table.tables.length :=
  ⟨by with_unfolding_all rfl, rfl,
   c8_push_pop_depth_amended 20 leak_program initial_table
     (RunRes.val (Value.integer 5)) leak_final_table
     (by with_unfolding_all rfl) rfl⟩

/-- C9 counterexample: the claim says an Integer exit code outside
`[0, 255]` makes `exit` a no-op returning None; in the source such a code
reaches `todo!()`, which panics. -/
theorem c9_exit_out_of_range_counterexample :
    builtins_exit [Value.integer 300] = BuiltinRes.panicked ∧
    builtins_exit [Value.integer 300] ≠ BuiltinRes.value Value.none := by
  refine ⟨rfl, ?_⟩
  intro h
  simp [builtins_exit] at h

/-- C9 amended: `exit(code)` terminates the process when `code` is an
Integer in `[0, 255]`; a non-Integer argument is a no-op returning None;
an Integer outside `[0, 255]` hits the unimplemented `todo!()` branch and
panics instead of being silently ignored. -/
theorem c9_exit_amended :
    (∀ c : Int, 0 ≤ c → c ≤ 255 →
      builtins_exit [Value.integer c] = BuiltinRes.terminated c) ∧
    (∀ c : Int, ¬(0 ≤ c ∧ c ≤ 255) →
      builtins_exit [Value.integer c] = BuiltinRes.panicked) ∧
    (∀ v : Value, v.is_integer = false →
      builtins_exit [v] = BuiltinRes.value Value.none) := by
  refine ⟨?_, ?_, ?_⟩
  · intro c h0 h255
    simp [builtins_exit, h0, h255]
  · intro c h
    simp [builtins_exit, h]
  · intro v h
    cases v <;> simp_all [builtins_exit, Value.is_integer]

/-- Witness for C9: code 7 terminates, code 300 panics, and a Boolean
argument returns None. -/
theorem c9_exit_amended_witness :
    builtins_exit [Value.integer 7] = BuiltinRes.terminated 7 ∧
    builtins_exit [Value.integer 300] = BuiltinRes.panicked ∧
    builtins_exit [Value.boolean true] = BuiltinRes.value Value.none :=
  ⟨c9_exit_amended.1 7 (by decide) (by decide),
   c9_exit_amended.2.1 300 (by decide),
   c9_exit_amended.2.2 (Value.boolean true) rfl⟩

/-- C10: `eval_binary_op` evaluates the syntactic right operand first — so
an error in the right operand is the one reported, whatever the left
operand is or would do — and on success the result is computed as
left-operand OP right-operand (`left_value.binary_operation(right_value)`). -/
theorem c10_binary_right_first :
    (∀ (fuel : Nat) (l rn : Node) (op : Token) (st st₁ : SymbolTable) (e : Runtime),
      evaluate fuel rn st = some (RunRes.err e, st₁) →
      evaluate (fuel + 1) (Node.binaryOp l op rn) st =
        some (RunRes.err e, st₁)) ∧
    (∀ (fuel : Nat) (l rn : Node) (op : Token) (st st₁ st₂ : SymbolTable)
        (rv lv : Value),
      evaluate fuel rn st = some (RunRes.val rv, st₁) →
      evaluate fuel l st₁ = some (RunRes.val lv, st₂) →
      evaluate (fuel + 1) (Node.binaryOp l op rn) st =
        some (op_to_run (Value.binary_operation lv rv op), st₂)) := by
  constructor
  · intro fuel l rn op st st₁ e hR
    rw [evaluate.eq_def]
    simp only [hR]
  · intro fuel l rn op st st₁ st₂ rv lv hR hL
    rw [evaluate.eq_def]
    simp only [hR, hL]

/-- Witness for C10: with two unknown identifiers the reported error names
the right operand's identifier `u`, and `1 - 2` evaluates to `-1` (left
minus right). -/
theorem c10_binary_right_first_witness :
    evaluate 3 (Node.binaryOp (Node.access (ident_token ("w")))
        (sample_token TokenKind.sub) (Node.access (ident_token ("u"))))
        initial_table =
      some (RunRes.err (Runtime.unknownIdentifier (ident_token ("u"))),
        initial_table) ∧
    evaluate 3 (Node.binaryOp (int_atom 1) (sample_token TokenKind.sub)
        (int_atom 2)) initial_table =
      some (RunRes.val (Value.integer (-1)), initial_table) :=
  ⟨c10_binary_right_first.1 2 (Node.access (ident_token ("w")))
     (Node.access (ident_token ("u"))) (sample_token TokenKind.sub)
     initial_table initial_table
     (Runtime.unknownIdentifier (ident_token ("u")))
     (by with_unfolding_all rfl),
   c10_binary_right_first.2 2 (int_atom 1) (int_atom 2)
     (sample_token TokenKind.sub) initial_table initial_table initial_table
     (Value.integer 2) (Value.integer 1) (by with_unfolding_all rfl)
     (by with_unfolding_all rfl)⟩

end Mono
